import Mathlib

/-!
Shallow embedding of the plan-execution engine of `src/agent/executor.py`
(repository ServiceNowAgentv1).

Python run-time values flowing through the executor are modelled by the
JSON-like type `JVal`.  Python dicts are association lists that keep
insertion order, with first-key lookup (`dget`) and replace-or-append
update (`dset`).  The asynchronous ServiceNow client is modelled by an
oracle mapping the index of a remote call (the number of remote calls made
so far in the run) and the call's arguments to either a response body or a
raised exception (`Except.error` with the exception's message).  The
external cache callables `cache_get`/`cache_set` are modelled by two
booleans saying whether each callable was supplied, plus an association
list holding the cache's content (a dict-backed cache: a stored `None` is
indistinguishable from an absent key on retrieval, which is exactly the
`hit is not None` test of the Python code).

Not modelled: wall-clock timing (`durationMs`), `print` logging, and the
`on_step` observer (its exceptions are swallowed, so it cannot influence
control flow or any value in the report).  The SHA-256 digest in
`_cache_key` is abstracted by the canonical JSON serialization itself
(the digest's argument); only equality of keys on equal inputs matters to
the executor, and that is preserved.  Pydantic objects (`model_dump` /
`__dict__` inputs) lie outside the value universe; the dict/list/scalar
cases of `_to_plain_dict` and `_extract_steps` are modelled exactly.
-/

namespace SNExec

/-- Python values handled by the executor (JSON-like universe). -/
inductive JVal where
  | null
  | bool (b : Bool)
  | num (n : Int)
  | str (s : String)
  | arr (xs : List JVal)
  | obj (kvs : List (String × JVal))

/-- Python dict lookup `d.get(k)` (first matching key, `none` if absent). -/
def dget : List (String × JVal) → String → Option JVal
  | [], _ => none
  | (k, v) :: rest, key => if k = key then some v else dget rest key

/-- Python dict lookup defaulting to `None`. -/
def dgetD (d : List (String × JVal)) (key : String) : JVal :=
  (dget d key).getD .null

/-- Python dict assignment `d[k] = v` (replace in place, else append). -/
def dset : List (String × JVal) → String → JVal → List (String × JVal)
  | [], key, v => [(key, v)]
  | (k, w) :: rest, key, v =>
    if k = key then (k, v) :: rest else (k, w) :: dset rest key v

/-- Python truthiness of a `JVal`. -/
def isTruthy : JVal → Bool
  | .null => false
  | .bool b => b
  | .num n => n != 0
  | .str s => s != ""
  | .arr xs => !xs.isEmpty
  | .obj kvs => !kvs.isEmpty

/-- Python `a or b`: `a` when truthy, else `b`. -/
def pyOr (a b : JVal) : JVal :=
  if isTruthy a then a else b

/-- ASCII lower-casing of one character (`str.lower` restricted to the
ASCII range; operation names in this code base are ASCII). -/
def lowerChar (c : Char) : Char :=
  if 'A' ≤ c ∧ c ≤ 'Z' then Char.ofNat (c.toNat + 32) else c

/-- Python `str.lower()` (ASCII range). -/
def pyLower (s : String) : String :=
  String.mk (s.data.map lowerChar)

/-- Python `str.strip()`: drop leading and trailing whitespace. -/
def pyStrip (s : String) : String :=
  String.mk (((s.data.dropWhile Char.isWhitespace).reverse.dropWhile
    Char.isWhitespace).reverse)

/-- Accumulate the numeric value of a digit run. -/
def digitsVal : List Char → Nat → Nat
  | [], acc => acc
  | c :: cs, acc => digitsVal cs (acc * 10 + (c.toNat - '0'.toNat))

/-- Python `int(str)`: surrounding whitespace allowed, optional sign, at
least one digit (underscore grouping is not modelled; no claim depends on
it). -/
def pyIntStr (s : String) : Option Int :=
  match (pyStrip s).data with
  | '-' :: rest =>
    if rest ≠ [] ∧ rest.all Char.isDigit then some (-(digitsVal rest 0 : Int)) else none
  | '+' :: rest =>
    if rest ≠ [] ∧ rest.all Char.isDigit then some ((digitsVal rest 0 : Int)) else none
  | cs =>
    if cs ≠ [] ∧ cs.all Char.isDigit then some ((digitsVal cs 0 : Int)) else none

/-- Helper of `pySplitComma`. -/
def splitCommaAux : List Char → List Char → List String
  | [], acc => [String.mk acc.reverse]
  | c :: cs, acc =>
    if c = ',' then String.mk acc.reverse :: splitCommaAux cs []
    else splitCommaAux cs (c :: acc)

/-- Python `str.split(",")`. -/
def pySplitComma (s : String) : List String :=
  splitCommaAux s.data []

mutual
/-- Python `repr` of a value (string escaping inside quotes is not
reproduced; no claim depends on it). -/
def pyRepr : JVal → String
  | .null => "None"
  | .bool b => if b then "True" else "False"
  | .num n => toString n
  | .str s => "'" ++ s ++ "'"
  | .arr xs => "[" ++ pyReprList xs ++ "]"
  | .obj kvs => "\x7b" ++ pyReprObj kvs ++ "\x7d"

def pyReprList : List JVal → String
  | [] => ""
  | [x] => pyRepr x
  | x :: rest => pyRepr x ++ ", " ++ pyReprList rest

def pyReprObj : List (String × JVal) → String
  | [] => ""
  | [(k, v)] => "'" ++ k ++ "': " ++ pyRepr v
  | (k, v) :: rest => "'" ++ k ++ "': " ++ pyRepr v ++ ", " ++ pyReprObj rest
end

/-- Python `str()` of a value. -/
def pyStr : JVal → String
  | .null => "None"
  | .bool b => if b then "True" else "False"
  | .num n => toString n
  | .str s => s
  | .arr xs => pyRepr (.arr xs)
  | .obj kvs => pyRepr (.obj kvs)

/-- Python `int()` of a value, `none` when it raises
(used for `sysparm_limit` parsing; `int(str)` accepts surrounding
whitespace). -/
def pyInt : JVal → Option Int
  | .num n => some n
  | .bool b => some (if b then 1 else 0)
  | .str s => pyIntStr s
  | _ => none

/-- `_to_plain_dict` of `executor.py`: `None` becomes `{}`, a dict is kept,
anything else in the JSON universe raises `ValueError` (the pydantic
`model_dump`/`dict`/`__dict__` branches concern objects outside this
universe). -/
def _to_plain_dict : JVal → Except String (List (String × JVal))
  | .null => .ok []
  | .obj kvs => .ok kvs
  | v => .error ("ValueError: Cannot convert to dict: " ++ pyRepr v)

/-- The canonical normalized step produced by `_normalize_step`. -/
structure NormStep where
  operation : String
  table : String
  query : JVal
  sys_id : JVal
  fields : List (String × JVal)
  params : List (String × JVal)
  note : JVal

/-- `_normalize_step` of `executor.py`.  Kept fallible: `_to_plain_dict`
raises on a non-dict step, and `.strip()` raises `AttributeError` when the
truthy value chosen for `operation`/`table` is not a string. -/
def _normalize_step (step : JVal) : Except String NormStep := do
  let d ← match step with
    | .obj kvs => .ok kvs
    | v => _to_plain_dict v
  let opv := pyOr (dgetD d "operation") (pyOr (dgetD d "action") (pyOr (dgetD d "op") (.str "")))
  let op ← match opv with
    | .str s => .ok (pyStrip s)
    | v => .error ("AttributeError: " ++ pyRepr v ++ " has no attribute strip")
  let tv := pyOr (dgetD d "table") (.str "")
  let table ← match tv with
    | .str s => .ok (pyStrip s)
    | v => .error ("AttributeError: " ++ pyRepr v ++ " has no attribute strip")
  let query := dgetD d "query"
  let sysId := pyOr (dgetD d "sys_id") (dgetD d "sysId")
  let f0 := pyOr (dgetD d "fields") (pyOr (dgetD d "data") (.obj []))
  let fields := match f0 with
    | .obj kvs => kvs
    | _ => []
  let p0 := pyOr (dgetD d "params") (.obj [])
  let params := match p0 with
    | .obj kvs => kvs
    | _ => []
  let note := pyOr (dgetD d "note") (dgetD d "description")
  .ok ⟨op, table, query, sysId, fields, params, note⟩

/-- Python `list(x)` on the JSON universe: lists iterate, strings iterate
into one-character strings, dicts iterate over their keys, scalars raise
`TypeError`. -/
def pyList : JVal → Except String (List JVal)
  | .arr xs => .ok xs
  | .str s => .ok (s.data.map (fun c => .str (String.mk [c])))
  | .obj kvs => .ok (kvs.map (fun kv => .str kv.1))
  | v => .error ("TypeError: " ++ pyRepr v ++ " object is not iterable")

/-- `_extract_steps` of `executor.py` on the JSON universe.  Scalars fall
through every `isinstance` test into the final `try/except` (whose
`_to_plain_dict` raises, and the exception is swallowed into `[]`); the
`hasattr(plan, "steps")` branch concerns objects outside this universe. -/
def _extract_steps : JVal → Except String (List JVal)
  | .null => .ok []
  | .obj kvs =>
    let s := pyOr (dgetD kvs "steps") (pyOr (dgetD kvs "plan") (dgetD kvs "actions"))
    if isTruthy s then pyList s else .ok []
  | .arr xs => .ok xs
  | _ => .ok []

/-- `_op_alias` of `executor.py`. -/
def _op_alias (op : String) : String :=
  let o := pyLower (pyStrip op)
  if o = "read" ∨ o = "fetch" then "get"
  else if o = "list" ∨ o = "search" then "query"
  else if o = "insert" then "create"
  else if o = "change_update_set" then "change_update_set"
  else o

/-- `_extract_sys_id` of `executor.py`: a top-level string `sys_id`, else a
`result` object's string `sys_id`, else — when `result` is a list — the
first element's string `sys_id`. -/
def _extract_sys_id : JVal → Option String
  | .obj kvs =>
    match dget kvs "sys_id" with
    | some (.str s) => some s
    | _ =>
      match dget kvs "result" with
      | some (.obj rkvs) =>
        match dget rkvs "sys_id" with
        | some (.str s) => some s
        | _ => none
      | some (.arr (row :: _)) =>
        match row with
        | .obj rkvs =>
          match dget rkvs "sys_id" with
          | some (.str s) => some s
          | _ => none
        | _ => none
      | _ => none
  | _ => none

/-- Match a literal character sequence at the head of the input, returning
the rest. -/
def matchLit : List Char → List Char → Option (List Char)
  | rest, [] => some rest
  | c :: cs, p :: ps => if c = p then matchLit cs ps else none
  | [], _ :: _ => none

/-- Matcher for the regex `\$step(\d+)\.sys_id`: on success, the length of
the match and the context key `stepN.sys_id`. -/
def matchSysIdTok (cs : List Char) : Option (Nat × String) := do
  let r1 ← matchLit cs "$step".data
  let ds := r1.takeWhile Char.isDigit
  if ds.isEmpty then none
  else
    let r2 := r1.drop ds.length
    let _ ← matchLit r2 ".sys_id".data
    some (5 + ds.length + 7, "step" ++ String.mk ds ++ ".sys_id")

/-- Matcher for the regex `\$step(\d+)\.result\[(\d+)\]\.sys_id`. -/
def matchResultTok (cs : List Char) : Option (Nat × String) := do
  let r1 ← matchLit cs "$step".data
  let ds ← (let t := r1.takeWhile Char.isDigit; if t.isEmpty then none else some t)
  let r2 := r1.drop ds.length
  let r3 ← matchLit r2 ".result[".data
  let es ← (let t := r3.takeWhile Char.isDigit; if t.isEmpty then none else some t)
  let r4 := r3.drop es.length
  let _ ← matchLit r4 "].sys_id".data
  some (5 + ds.length + 8 + es.length + 8,
        "step" ++ String.mk ds ++ ".result[" ++ String.mk es ++ "].sys_id")

/-- Character class of the regex `<([A-Z0-9_]+)>`. -/
def isTokChar (c : Char) : Bool :=
  (c.isUpper && c.isAlpha) || c.isDigit || c = '_'

/-- Matcher for the regex `<([A-Z0-9_]+)>`. -/
def matchAliasTok (cs : List Char) : Option (Nat × String) := do
  let r1 ← matchLit cs "<".data
  let ts ← (let t := r1.takeWhile isTokChar; if t.isEmpty then none else some t)
  let r2 := r1.drop ts.length
  let _ ← matchLit r2 ">".data
  some (1 + ts.length + 1, String.mk ts)

/-- One `re.sub` pass: scan left to right; at each position, if the matcher
succeeds, emit `str(v)` when the captured context key is bound (to any
value, `None`-check as in the Python replacement functions) and the
original matched text otherwise, then continue after the match; otherwise
emit the character and advance by one.  Structural recursion on a fuel
argument (every scanner step consumes at least one character of input, so
fuel equal to the input length — supplied by `subPass` — always
suffices). -/
def subPassF (m : List Char → Option (Nat × String)) (ctx : List (String × JVal)) :
    Nat → List Char → List Char
  | 0, cs => cs
  | _ + 1, [] => []
  | fuel + 1, c :: cs =>
    match m (c :: cs) with
    | some (n, key) =>
      if 0 < n then
        (match dget ctx key with
         | some v => (pyStr v).data
         | none => (c :: cs).take n) ++ subPassF m ctx fuel ((c :: cs).drop n)
      else
        c :: subPassF m ctx fuel cs
    | none => c :: subPassF m ctx fuel cs

/-- One `re.sub` pass over a whole character list. -/
def subPass (m : List Char → Option (Nat × String)) (ctx : List (String × JVal))
    (cs : List Char) : List Char :=
  subPassF m ctx cs.length cs

/-- `_substitute` of `executor.py` on one string: the three regex passes in
their fixed order. -/
def substStr (s : String) (ctx : List (String × JVal)) : String :=
  String.mk (subPass matchAliasTok ctx
    (subPass matchResultTok ctx
      (subPass matchSysIdTok ctx s.data)))

mutual
/-- `_substitute` of `executor.py`: recurse through lists and dict values,
rewrite strings, leave other scalars unchanged. -/
def substVal : JVal → List (String × JVal) → JVal
  | .str s, ctx => .str (substStr s ctx)
  | .arr xs, ctx => .arr (substList xs ctx)
  | .obj kvs, ctx => .obj (substPairs kvs ctx)
  | v, _ => v

def substList : List JVal → List (String × JVal) → List JVal
  | [], _ => []
  | x :: rest, ctx => substVal x ctx :: substList rest ctx

def substPairs : List (String × JVal) → List (String × JVal) → List (String × JVal)
  | [], _ => []
  | (k, v) :: rest, ctx => (k, substVal v ctx) :: substPairs rest ctx
end

/-- A string free of the substitution-pass start characters `$` and `<`:
no regex pass of `_substitute` can start a match inside it. -/
abbrev TokenFree (s : String) : Prop := ∀ c ∈ s.data, c ≠ '$' ∧ c ≠ '<'

/-- A nonempty all-digit string (a `(\d+)` capture of the token regexes). -/
abbrev DigitStr (s : String) : Prop := s ≠ "" ∧ ∀ c ∈ s.data, c.isDigit = true

/-- A nonempty `[A-Z0-9_]+` string (the `<TOKEN>` capture class). -/
abbrev TokName (s : String) : Prop := s ≠ "" ∧ ∀ c ∈ s.data, isTokChar c = true


/-- Lexicographic comparison of character lists (the code-point order
`json.dumps(..., sort_keys=True)` sorts keys by). -/
def charListLe : List Char → List Char → Bool
  | [], _ => true
  | _ :: _, [] => false
  | a :: as, b :: bs => if a = b then charListLe as bs else decide (a < b)

/-- Insertion into a key-sorted association list of rendered entries. -/
def insertByKey (p : String × String) : List (String × String) → List (String × String)
  | [] => [p]
  | q :: rest => if charListLe p.1.data q.1.data then p :: q :: rest else q :: insertByKey p rest

/-- Key-sort of rendered entries (for `json.dumps(..., sort_keys=True)`). -/
def sortByKey : List (String × String) → List (String × String)
  | [] => []
  | p :: rest => insertByKey p (sortByKey rest)

/-- Join rendered object entries in `json.dumps` style. -/
def joinPairs : List (String × String) → String
  | [] => ""
  | [(k, v)] => "\"" ++ k ++ "\": " ++ v
  | (k, v) :: rest => "\"" ++ k ++ "\": " ++ v ++ ", " ++ joinPairs rest

mutual
/-- `json.dumps(..., sort_keys=True, default=str)` on the JSON universe
(string escaping inside quotes is not reproduced; no claim depends on
it). -/
def canon : JVal → String
  | .null => "null"
  | .bool b => if b then "true" else "false"
  | .num n => toString n
  | .str s => "\"" ++ s ++ "\""
  | .arr xs => "[" ++ canonList xs ++ "]"
  | .obj kvs => "\x7b" ++ joinPairs (sortByKey (canonPairs kvs)) ++ "\x7d"

def canonList : List JVal → String
  | [] => ""
  | [x] => canon x
  | x :: rest => canon x ++ ", " ++ canonList rest

def canonPairs : List (String × JVal) → List (String × String)
  | [] => []
  | (k, v) :: rest => (k, canon v) :: canonPairs rest
end

/-- `_cache_key` of `executor.py`.  The truncated SHA-256 digest is
abstracted by its (canonically serialized) preimage: the executor only
compares keys for equality, and equal inputs give equal keys either way. -/
def _cache_key (op table : String) (sysId : Option String) (query : Option String)
    (params : List (String × JVal)) : String :=
  "sn:" ++ canon (.obj
    [("op", .str op), ("table", .str table),
     ("sys_id", match sysId with | some s => .str s | none => .null),
     ("query", match query with | some s => .str s | none => .null),
     ("params", .obj params)])

/-- A remote call dispatched to the ServiceNow client adapter
(`_sn_create` / `_sn_update` / `_sn_delete` / `_sn_get` / `_sn_query` /
`_sn_change_update_set`). -/
inductive RemoteCall where
  | create (table : String) (fields : List (String × JVal))
  | update (table : String) (sysId : String) (fields : List (String × JVal))
  | delete (table : String) (sysId : String)
  | get (table : String) (sysId : String) (params : List (String × JVal))
  | query (table : String) (q : String) (limit : Int) (params : List (String × JVal))
  | changeUpdateSet (sysId : String)

/-- The record identifier argument of a remote call, when it has one. -/
def RemoteCall.recordId : RemoteCall → Option String
  | .update _ s _ => some s
  | .delete _ s => some s
  | .get _ s _ => some s
  | .changeUpdateSet s => some s
  | _ => none

/-- The ServiceNow client, as an oracle from the index of the remote call
within the run (how many remote calls were made before it) and the call's
arguments to a response body or a raised exception message. -/
def Oracle : Type :=
  Nat → RemoteCall → Except String JVal

/-- Mutable state threaded through one plan run: the reference context
`ctx`, the external cache's content, the trace of remote calls made, and
an instrumentation trace of every context write `(step index, key,
value)`. -/
structure LoopState where
  ctx : List (String × JVal)
  cache : List (String × JVal)
  calls : List RemoteCall
  writes : List (Nat × String × JVal)

/-- Perform one remote call: record it in the trace and consult the
oracle. -/
def callRemote (sn : Oracle) (c : RemoteCall) (st : LoopState) :
    Except String JVal × LoopState :=
  (sn st.calls.length c, { st with calls := st.calls ++ [c] })

/-- One context assignment `ctx[k] = v`, also recorded in the write
trace. -/
def ctxSet (st : LoopState) (i : Nat) (k : String) (v : JVal) : LoopState :=
  { st with ctx := dset st.ctx k v, writes := st.writes ++ [(i, k, v)] }

/-- `_register_aliases` of `executor.py`: store `stepI.sys_id` and, for the
`sc_cat_item` table, the `CAT_ITEM_SYS_ID` alias. -/
def _register_aliases (st : LoopState) (i : Nat) (sysId : String) (table : String) :
    LoopState :=
  let st1 := ctxSet st i ("step" ++ toString i ++ ".sys_id") (.str sysId)
  if table = "sc_cat_item" then ctxSet st1 i "CAT_ITEM_SYS_ID" (.str sysId) else st1

/-- The `enumerate(result)` loop of `_register_ctx_from_response`: register
`stepI.result[j].sys_id` for every row that is a dict with a truthy
`sys_id`. -/
def _register_rows (i : Nat) : Nat → List JVal → LoopState → LoopState
  | _, [], st => st
  | j, row :: rest, st =>
    let st' := match row with
      | .obj rkvs =>
        match dget rkvs "sys_id" with
        | some sid =>
          if isTruthy sid then
            ctxSet st i ("step" ++ toString i ++ ".result[" ++ toString j ++ "].sys_id") sid
          else st
        | none => st
      | _ => st
    _register_rows i (j + 1) rest st'

/-- `_register_ctx_from_response` of `executor.py`. -/
def _register_ctx_from_response (st : LoopState) (i : Nat) (body : JVal) : LoopState :=
  match body with
  | .obj kvs =>
    let st1 := match dget kvs "result" with
      | some (.obj rkvs) =>
        match dget rkvs "sys_id" with
        | some sid =>
          if isTruthy sid then ctxSet st i ("step" ++ toString i ++ ".sys_id") sid else st
        | none => st
      | _ => st
    match dget kvs "result" with
    | some (.arr rows) => _register_rows i 0 rows st1
    | _ => st1
  | _ => st

/-- `x is None` on the JSON universe (the cache-hit test `hit is not None`
of the execution loop). -/
def isNull : JVal → Bool
  | .null => true
  | _ => false

/-- One Step Result of the Execution Report (`durationMs` is wall-clock
time and is not modelled; in the Python dict the `error` key is present
iff the step failed, modelled by the `Option`). -/
structure StepResult where
  i : Nat
  operation : String
  table : String
  sys_id : JVal
  query : JVal
  fields : JVal
  params : JVal
  note : JVal
  ok : Bool
  error : Option String
  response : JVal
  displayRows : Option (List JVal)

/-- The cache-miss path of a `get` dispatch: perform the remote read and,
when `cache_set` is supplied and the read did not raise, store the body
under the cache key. -/
def missGet (sn : Oracle) (hasCS : Bool) (table sid : String)
    (params2 : List (String × JVal)) (ck : String) (st : LoopState) :
    Except String JVal × LoopState × List (String × JVal) :=
  let rc := callRemote sn (.get table sid params2) st
  match rc.1 with
  | .ok body =>
    if hasCS then (rc.1, { rc.2 with cache := dset rc.2.cache ck body }, params2)
    else (rc.1, rc.2, params2)
  | .error _ => (rc.1, rc.2, params2)

/-- The remote path of a `query` dispatch (`_sn_query`), whose
`setdefault` mutation makes `callParams` the observable params. -/
def missQuery (sn : Oracle) (table q : String) (limit : Int)
    (callParams : List (String × JVal)) (st : LoopState) :
    Except String JVal × LoopState × List (String × JVal) :=
  let rc := callRemote sn (.query table q limit callParams) st
  (rc.1, rc.2, callParams)

/-- The cache-miss path of a `query` dispatch: remote query, then store
the body under the cache key when the call did not raise. -/
def queryWithSet (sn : Oracle) (table q : String) (limit : Int)
    (callParams : List (String × JVal)) (ck : String) (st : LoopState) :
    Except String JVal × LoopState × List (String × JVal) :=
  let m := missQuery sn table q limit callParams st
  match m.1 with
  | .ok body => (m.1, { m.2.1 with cache := dset m.2.1.cache ck body }, m.2.2)
  | .error _ => m

/-- The `try` block of the execution loop: validation and dispatch of one
remote operation.  Returns the response (or the caught exception's
message), the updated state, and the `params` dict as finally observable
in the step result (`_sn_query` mutates the shared `params2` dict via
`setdefault` before awaiting, so a remotely dispatched query reflects the
injected `sysparm_limit`). -/
def tryDispatch (sn : Oracle) (hasCG hasCS : Bool) (op table : String)
    (sysId2 query2 : JVal) (fields2 params2 : List (String × JVal))
    (st : LoopState) : Except String JVal × LoopState × List (String × JVal) :=
  if table = "" then
    (.error "ValueError: Step missing 'table'.", st, params2)
  else if op = "create" then
    let rc := callRemote sn (.create table fields2) st
    (rc.1, rc.2, params2)
  else if op = "update" then
    if !isTruthy sysId2 then (.error "ValueError: Update requires sys_id.", st, params2)
    else
      let rc := callRemote sn (.update table (pyStr sysId2) fields2) st
      (rc.1, rc.2, params2)
  else if op = "delete" then
    if !isTruthy sysId2 then (.error "ValueError: Delete requires sys_id.", st, params2)
    else
      let rc := callRemote sn (.delete table (pyStr sysId2)) st
      (rc.1, rc.2, params2)
  else if op = "get" then
    if !isTruthy sysId2 then (.error "ValueError: Get requires sys_id.", st, params2)
    else
      let ck := _cache_key "get" table (some (pyStr sysId2)) none params2
      if hasCG then
        match dget st.cache ck with
        | some hit =>
          if isNull hit then missGet sn hasCS table (pyStr sysId2) params2 ck st
          else (.ok hit, st, params2)
        | none => missGet sn hasCS table (pyStr sysId2) params2 ck st
      else
        -- without `cache_get` the Python code performs a plain remote read
        -- and never reaches `cache_set`
        let rc := callRemote sn (.get table (pyStr sysId2) params2) st
        (rc.1, rc.2, params2)
  else if op = "query" then
    if !isTruthy query2 then
      (.error "ValueError: Query requires query (sysparm_query).", st, params2)
    else
      let limit : Int := match dget params2 "sysparm_limit" with
        | some .null => 25
        | some v => (pyInt v).getD 25
        | none => 25
      let callParams := match dget params2 "sysparm_limit" with
        | some _ => params2
        | none => params2 ++ [("sysparm_limit", .str (toString limit))]
      if hasCG && hasCS then
        let ck := _cache_key "query" table none (some (pyStr query2)) params2
        match dget st.cache ck with
        | some hit =>
          if isNull hit then queryWithSet sn table (pyStr query2) limit callParams ck st
          else (.ok hit, st, params2)
        | none => queryWithSet sn table (pyStr query2) limit callParams ck st
      else missQuery sn table (pyStr query2) limit callParams st
  else if op = "change_update_set" then
    let rc := callRemote sn (.changeUpdateSet (pyStr sysId2)) st
    (rc.1, rc.2, params2)
  else
    (.error ("ValueError: Unsupported operation: " ++ pyRepr (.str op)), st, params2)

/-- The display projection for successful query steps (`displayRows`):
caller-requested columns from `params.sysparm_fields`, else at most the
first 10 raw rows. -/
def displayRowsFor (paramsOut : List (String × JVal)) (rows : List JVal) : List JVal :=
  let fieldsList := match dget paramsOut "sysparm_fields" with
    | some fv =>
      if isTruthy fv then ((pySplitComma (pyStr fv)).map pyStrip).filter (· ≠ "")
      else []
    | none => []
  if !fieldsList.isEmpty then
    rows.filterMap (fun r => match r with
      | .obj rkvs => some (.obj (fieldsList.map (fun k => (k, dgetD rkvs k))))
      | _ => none)
  else rows.take 10

/-- The conditional substitution applied to `query` and `sys_id`:
`_substitute(x, ctx) if isinstance(x, str) else x`. -/
def substIfStr (v : JVal) (ctx : List (String × JVal)) : JVal :=
  match v with
  | .str q => .str (substStr q ctx)
  | w => w

/-- One iteration of the execution loop of `execute_steps` on an already
normalized step: substitution, dispatch, outcome classification
(exception, then ServiceNow error envelope), context registration and
display projection. -/
def dispatchStep (sn : Oracle) (hasCG hasCS : Bool) (i : Nat) (s : NormStep)
    (st : LoopState) : StepResult × LoopState :=
  let op := _op_alias s.operation
  let table := s.table
  let fields2 := substPairs s.fields st.ctx
  let params2 := substPairs s.params st.ctx
  let query2 := substIfStr s.query st.ctx
  let sysId2 := substIfStr s.sys_id st.ctx
  let (resp, st1, paramsOut) :=
    tryDispatch sn hasCG hasCS op table sysId2 query2 fields2 params2 st
  let okBody : Bool × Option String × JVal := match resp with
    | .ok b => (true, none, b)
    | .error e => (false, some e, .null)
  let ok0 := okBody.1
  let err0 := okBody.2.1
  let body := okBody.2.2
  -- ServiceNow error envelope (checked only when no exception was raised)
  let okErr : Bool × Option String :=
    if ok0 then
      match body with
      | .obj kvs =>
        match dget kvs "error" with
        | some ev =>
          if isTruthy ev then (false, some ("ServiceNow error: " ++ pyStr ev))
          else (true, none)
        | none => (true, none)
      | _ => (true, none)
    else (ok0, err0)
  let ok := okErr.1
  let errMsg := okErr.2
  -- capture sys_id + query result sys_ids
  let regd : LoopState × Option String :=
    if ok then
      match _extract_sys_id body with
      | some cid =>
        if cid ≠ "" then
          (_register_ctx_from_response (_register_aliases st1 i cid table) i body, some cid)
        else (_register_ctx_from_response st1 i body, none)
      | none => (_register_ctx_from_response st1 i body, none)
    else (st1, none)
  let st2 := regd.1
  let newSysId := regd.2
  let displayRows : Option (List JVal) :=
    if ok && op = "query" then
      match body with
      | .obj kvs =>
        match dget kvs "result" with
        | some (.arr rows) => some (displayRowsFor paramsOut rows)
        | _ => none
      | _ => none
    else none
  (⟨i, op, table,
    (match newSysId with | some c => .str c | none => sysId2),
    query2, .obj fields2, .obj paramsOut, s.note,
    ok, (if ok then none else errMsg), body, displayRows⟩, st2)

/-- The loop body of `execute_steps` over the raw step list.
`_normalize_step` is invoked outside the `try` block, so its exceptions
propagate (`Except.error`).  A failed step halts the loop when
`stop_on_error` is set. -/
def runLoop (sn : Oracle) (stop hasCG hasCS : Bool) :
    Nat → LoopState → List JVal → Except String (List StepResult × LoopState)
  | _, st, [] => .ok ([], st)
  | i, st, raw :: rest =>
    match _normalize_step raw with
    | .error e => .error e
    | .ok s =>
      let p := dispatchStep sn hasCG hasCS i s st
      if !p.1.ok && stop then .ok ([p.1], p.2)
      else
        match runLoop sn stop hasCG hasCS (i + 1) p.2 rest with
        | .error e => .error e
        | .ok (more, st'') => .ok (p.1 :: more, st'')

/-- The Execution Report returned by `execute_steps`. -/
structure Report where
  ok : Bool
  steps : List StepResult

/-- The overall success flag:
`all(s.get("ok") for s in steps_out) if steps_out else False`. -/
def reportOk : List StepResult → Bool
  | [] => false
  | steps => steps.all (·.ok)

/-- Initial run state: empty context, the cache's pre-existing content, no
calls, no writes. -/
def initState (cache0 : List (String × JVal)) : LoopState :=
  ⟨[], cache0, [], []⟩

/-- `execute_steps` of `executor.py`, also exposing the final run state
(remote-call trace, context, cache, write trace) for verification.
`hasCG`/`hasCS` say whether the `cache_get`/`cache_set` callables were
supplied; `cache0` is the cache's pre-existing content. -/
def execute_steps_full (sn : Oracle) (plan : JVal) (stop hasCG hasCS : Bool)
    (cache0 : List (String × JVal)) : Except String (Report × LoopState) :=
  match _extract_steps plan with
  | .error e => .error e
  | .ok raws =>
    match runLoop sn stop hasCG hasCS 1 (initState cache0) raws with
    | .error e => .error e
    | .ok (steps, st) => .ok (⟨reportOk steps, steps⟩, st)

/-- `execute_steps` of `executor.py`: the Execution Report alone. -/
def execute_steps (sn : Oracle) (plan : JVal) (stop hasCG hasCS : Bool)
    (cache0 : List (String × JVal)) : Except String Report :=
  (execute_steps_full sn plan stop hasCG hasCS cache0).map Prod.fst

/-- Whether an `Except` result is a normal return (no escaped
exception). -/
def exceptOk : Except String α → Bool
  | .ok _ => true
  | .error _ => false

/-- The Execution Report of a completed run (a failed empty report when an
exception escaped; use `exceptOk` to tell the two apart). -/
def runReport (r : Except String (Report × LoopState)) : Report :=
  match r with
  | .ok (rep, _) => rep
  | .error _ => ⟨false, []⟩

/-- The Step Results of a completed run (empty when an exception
escaped). -/
def runSteps (r : Except String (Report × LoopState)) : List StepResult :=
  match r with
  | .ok (rep, _) => rep.steps
  | .error _ => []

/-- The final reference context of a completed run. -/
def runCtx (r : Except String (Report × LoopState)) : List (String × JVal) :=
  match r with
  | .ok (_, st) => st.ctx
  | .error _ => []

/-- The trace of remote calls made during a run. -/
def runCalls (r : Except String (Report × LoopState)) : List RemoteCall :=
  match r with
  | .ok (_, st) => st.calls
  | .error _ => []

/-- The trace of reference-context writes `(step index, key, value)` made
during a run. -/
def runWrites (r : Except String (Report × LoopState)) : List (Nat × String × JVal) :=
  match r with
  | .ok (_, st) => st.writes
  | .error _ => []

/-- An oracle answering every remote call with the same body. -/
def oracleConst (v : JVal) : Oracle := fun _ _ => .ok v

/-- Whether a value is a Python string (the implicit type expectation of
`.strip()` in the normalizer). -/
def isStrVal : JVal → Bool
  | .str _ => true
  | _ => false

/-- The write discipline the Reference Context actually maintains: every
write `(j, k, v)` recorded during a run stores a truthy value, and its key
is either the catalog-item alias or is scoped to the step that made it
(`stepJ.` prefix with the writer's own index `J`). -/
def GoodWrite (w : Nat × String × JVal) : Prop :=
  isTruthy w.2.2 = true ∧
    (w.2.1 = "CAT_ITEM_SYS_ID" ∨ ∃ r, w.2.1 = "step" ++ toString w.1 ++ "." ++ r)

/-! ### Helper lemmas about the dispatcher -/

/-- A step with an empty collection fails locally with the validation
message, leaving the run state (context, cache, calls, writes)
untouched. -/
theorem dispatch_missing_table (sn : Oracle) (cg cs : Bool) (i : Nat) (s : NormStep)
    (st : LoopState) (h : s.table = "") :
    (dispatchStep sn cg cs i s st).1.ok = false ∧
    (dispatchStep sn cg cs i s st).1.error = some "ValueError: Step missing 'table'." ∧
    (dispatchStep sn cg cs i s st).2 = st := by
  simp [dispatchStep, tryDispatch, h]

/-- The overall flag of the report equals `false` for an empty step list
and `all ok` otherwise. -/
theorem reportOk_iff (l : List StepResult) :
    reportOk l = true ↔ l ≠ [] ∧ ∀ r ∈ l, r.ok = true := by
  cases l with
  | nil => simp [reportOk]
  | cons a t => simp [reportOk, List.all_eq_true]

/-- The report construction of `execute_steps_full`: a returned report's
flag is exactly `reportOk` of its step list. -/
theorem execute_ok_flag (sn : Oracle) (plan : JVal) (stop cg cs : Bool)
    (cache0 : List (String × JVal)) (rep : Report) (st : LoopState)
    (h : execute_steps_full sn plan stop cg cs cache0 = .ok (rep, st)) :
    rep.ok = reportOk rep.steps := by
  unfold execute_steps_full at h
  rcases h1 : _extract_steps plan with e | raws
  · rw [h1] at h; exact absurd h (by simp)
  · rw [h1] at h
    simp only [] at h
    rcases h2 : runLoop sn stop cg cs 1 (initState cache0) raws with e | pr
    · rw [h2] at h; exact absurd h (by simp)
    · rw [h2] at h
      simp only [Except.ok.injEq, Prod.mk.injEq] at h
      rw [← h.1]

/-! ### C10 — operation-name aliasing -/

/-- C10 counterexample: the claim says every non-aliased operation name
passes through unchanged, but `_op_alias` first trims and lower-cases, so
`"Note"` maps to `"note"`, not to itself. -/
theorem claim_C10_counterexample :
    _op_alias "Note" = "note" ∧ ("note" : String) ≠ "Note" := by
  exact ⟨by decide, by decide⟩

/-- C10 amended: after trimming and lower-casing, `read`/`fetch` map to
`get`, `list`/`search` to `query`, `insert` to `create`, and every other
trimmed lower-cased name (including `change_update_set`) passes through
unchanged. -/
theorem claim_C10_alias (s : String)
    (h1 : pyLower (pyStrip s) ≠ "read") (h2 : pyLower (pyStrip s) ≠ "fetch")
    (h3 : pyLower (pyStrip s) ≠ "list") (h4 : pyLower (pyStrip s) ≠ "search")
    (h5 : pyLower (pyStrip s) ≠ "insert") :
    _op_alias "read" = "get" ∧ _op_alias "fetch" = "get" ∧
    _op_alias "list" = "query" ∧ _op_alias "search" = "query" ∧
    _op_alias "insert" = "create" ∧
    _op_alias "change_update_set" = "change_update_set" ∧
    _op_alias s = pyLower (pyStrip s) := by
  refine ⟨by decide, by decide, by decide, by decide, by decide, by decide, ?_⟩
  unfold _op_alias
  rw [if_neg (by tauto), if_neg (by tauto), if_neg h5]
  by_cases hc : pyLower (pyStrip s) = "change_update_set"
  · rw [if_pos hc, hc]
  · rw [if_neg hc]

/-- C10 witness: the amended alias theorem applied at `"delete"`. -/
theorem claim_C10_witness :
    _op_alias "read" = "get" ∧ _op_alias "fetch" = "get" ∧
    _op_alias "list" = "query" ∧ _op_alias "search" = "query" ∧
    _op_alias "insert" = "create" ∧
    _op_alias "change_update_set" = "change_update_set" ∧
    _op_alias "delete" = pyLower (pyStrip "delete") :=
  claim_C10_alias "delete" (by decide) (by decide) (by decide) (by decide) (by decide)

/-! ### C4 — overall success flag and empty plan -/

/-- C4: for every run that returns a report, the overall `ok` flag is true
iff the report is nonempty and every executed step succeeded; and an empty
plan returns exactly `⟨false, []⟩` (never vacuously true). -/
theorem claim_C4_overall_ok (sn : Oracle) (plan : JVal) (stop cg cs : Bool)
    (cache0 : List (String × JVal)) (rep : Report) (st : LoopState)
    (h : execute_steps_full sn plan stop cg cs cache0 = .ok (rep, st)) :
    (rep.ok = true ↔ rep.steps ≠ [] ∧ ∀ r ∈ rep.steps, r.ok = true) ∧
    (∀ (sn' : Oracle) (stop' cg' cs' : Bool) (c0' : List (String × JVal)),
      execute_steps sn' (.arr []) stop' cg' cs' c0' = .ok ⟨false, []⟩) := by
  constructor
  · rw [execute_ok_flag sn plan stop cg cs cache0 rep st h]
    exact reportOk_iff rep.steps
  · intro sn' stop' cg' cs' c0'
    rfl

/-- C4 witness: the flag characterization applied to a concrete one-step
run, together with the empty-plan equation. -/
theorem claim_C4_witness :
    ((false : Bool) = true ↔
      [(dispatchStep (oracleConst .null) false false 1
          (NormStep.mk "note" "" .null .null [] [] .null) (initState [])).1] ≠ [] ∧
      ∀ r ∈ [(dispatchStep (oracleConst .null) false false 1
          (NormStep.mk "note" "" .null .null [] [] .null) (initState [])).1], r.ok = true) ∧
    (∀ (sn' : Oracle) (stop' cg' cs' : Bool) (c0' : List (String × JVal)),
      execute_steps sn' (.arr []) stop' cg' cs' c0' = .ok ⟨false, []⟩) :=
  claim_C4_overall_ok (oracleConst .null)
    (.arr [.obj [("operation", .str "note")]]) true false false [] _ _ rfl

/-! ### C3 — stop-on-error semantics -/

/-- Unfolding of the loop on a failing head step with
`stop_on_error=true`. -/
theorem runLoop_fail_stop (sn : Oracle) (cg cs : Bool) (i : Nat) (st : LoopState)
    (A : JVal) (rest : List JVal) (sA : NormStep)
    (hA : _normalize_step A = .ok sA)
    (hFail : (dispatchStep sn cg cs i sA st).1.ok = false) :
    runLoop sn true cg cs i st (A :: rest) =
      .ok ([(dispatchStep sn cg cs i sA st).1], (dispatchStep sn cg cs i sA st).2) := by
  simp only [runLoop, hA]
  simp [hFail]

/-- Unfolding of the loop on any head step with `stop_on_error=false`. -/
theorem runLoop_nostop (sn : Oracle) (cg cs : Bool) (i : Nat) (st : LoopState)
    (A : JVal) (rest : List JVal) (sA : NormStep)
    (hA : _normalize_step A = .ok sA) :
    runLoop sn false cg cs i st (A :: rest) =
      match runLoop sn false cg cs (i + 1) (dispatchStep sn cg cs i sA st).2 rest with
      | .error e => .error e
      | .ok (more, st'') => .ok ((dispatchStep sn cg cs i sA st).1 :: more, st'') := by
  simp only [runLoop, hA]
  simp

/-- C3: for a two-step plan whose first step fails (and whose steps
normalize without raising), `stop_on_error=true` yields a report holding
exactly the first step's result with overall `ok=false`, the second step
being neither executed nor reported; `stop_on_error=false` yields both
step results with overall `ok=false`. -/
theorem claim_C3_stop_on_error (sn : Oracle) (cg cs : Bool)
    (cache0 : List (String × JVal)) (A B : JVal) (sA sB : NormStep)
    (hA : _normalize_step A = .ok sA) (hB : _normalize_step B = .ok sB)
    (hFail : (dispatchStep sn cg cs 1 sA (initState cache0)).1.ok = false) :
    execute_steps_full sn (.arr [A, B]) true cg cs cache0 =
      .ok (⟨false, [(dispatchStep sn cg cs 1 sA (initState cache0)).1]⟩,
           (dispatchStep sn cg cs 1 sA (initState cache0)).2) ∧
    execute_steps_full sn (.arr [A, B]) false cg cs cache0 =
      .ok (⟨false,
            [(dispatchStep sn cg cs 1 sA (initState cache0)).1,
             (dispatchStep sn cg cs 2 sB
               (dispatchStep sn cg cs 1 sA (initState cache0)).2).1]⟩,
           (dispatchStep sn cg cs 2 sB
             (dispatchStep sn cg cs 1 sA (initState cache0)).2).2) := by
  have hx : _extract_steps (.arr [A, B]) = .ok [A, B] := rfl
  constructor
  · unfold execute_steps_full
    rw [hx]
    simp only []
    rw [runLoop_fail_stop sn cg cs 1 (initState cache0) A [B] sA hA hFail]
    simp [reportOk, hFail]
  · unfold execute_steps_full
    rw [hx]
    simp only []
    rw [runLoop_nostop sn cg cs 1 (initState cache0) A [B] sA hA]
    rw [runLoop_nostop sn cg cs 2 (dispatchStep sn cg cs 1 sA (initState cache0)).2 B [] sB hB]
    simp only [runLoop]
    simp [reportOk, hFail]

/-- C3 witness: a concrete failing first step (missing collection) halts
the two-step plan when `stop_on_error=true` and is followed by the second
step when `stop_on_error=false`. -/
theorem claim_C3_witness :
    execute_steps_full (oracleConst .null)
      (.arr [.obj [("operation", .str "note")],
             .obj [("operation", .str "create"), ("table", .str "t")]])
      true false false [] =
      .ok (⟨false, [(dispatchStep (oracleConst .null) false false 1
              (NormStep.mk "note" "" .null .null [] [] .null) (initState [])).1]⟩,
           (dispatchStep (oracleConst .null) false false 1
              (NormStep.mk "note" "" .null .null [] [] .null) (initState [])).2) ∧
    execute_steps_full (oracleConst .null)
      (.arr [.obj [("operation", .str "note")],
             .obj [("operation", .str "create"), ("table", .str "t")]])
      false false false [] =
      .ok (⟨false,
            [(dispatchStep (oracleConst .null) false false 1
                (NormStep.mk "note" "" .null .null [] [] .null) (initState [])).1,
             (dispatchStep (oracleConst .null) false false 2
                (NormStep.mk "create" "t" .null .null [] [] .null)
                (dispatchStep (oracleConst .null) false false 1
                  (NormStep.mk "note" "" .null .null [] [] .null) (initState [])).2).1]⟩,
           (dispatchStep (oracleConst .null) false false 2
              (NormStep.mk "create" "t" .null .null [] [] .null)
              (dispatchStep (oracleConst .null) false false 1
                (NormStep.mk "note" "" .null .null [] [] .null) (initState [])).2).2) :=
  claim_C3_stop_on_error (oracleConst .null) false false []
    (.obj [("operation", .str "note")])
    (.obj [("operation", .str "create"), ("table", .str "t")])
    (NormStep.mk "note" "" .null .null [] [] .null)
    (NormStep.mk "create" "t" .null .null [] [] .null)
    rfl rfl (by decide)

/-! ### C1 — context registration for query results -/

/-- C1 counterexample: for a query step answered with
`{"result": [{"sys_id": "r1"}, {"sys_id": "r2"}]}`, the engine stores
`step1.sys_id = "r1"` in the reference context (via the identifier
extraction that falls back to the first list element), contradicting the
claim that `step1.sys_id` is not set for such a step. -/
theorem claim_C1_counterexample :
    dget (runCtx (execute_steps_full
        (oracleConst (.obj [("result",
          .arr [.obj [("sys_id", .str "r1")], .obj [("sys_id", .str "r2")]])]))
        (.arr [.obj [("operation", .str "query"), ("table", .str "t"),
                     ("query", .str "q")]])
        true false false [])) "step1.sys_id" = some (.str "r1") := rfl

/-! ### C5 — dispatcher validation -/

/-- C5 counterexample: a `note` step is not exempt from the collection
requirement (it fails locally with "Step missing 'table'" and, given a
collection, as an unsupported operation), and a `change_update_set` step
without a record identifier is not rejected locally: it dispatches a
remote call with the stringified `None`. -/
theorem claim_C5_counterexample :
    (runSteps (execute_steps_full (oracleConst .null)
        (.arr [.obj [("operation", .str "note"), ("note", .str "hi")]])
        true false false [])).map (fun r => r.error) =
      [some "ValueError: Step missing 'table'."] ∧
    (runSteps (execute_steps_full (oracleConst .null)
        (.arr [.obj [("operation", .str "note"), ("table", .str "t"),
                     ("note", .str "hi")]])
        true false false [])).map (fun r => r.error) =
      [some "ValueError: Unsupported operation: 'note'"] ∧
    runCalls (execute_steps_full (oracleConst .null)
        (.arr [.obj [("operation", .str "change_update_set"), ("table", .str "t")]])
        true false false []) = [RemoteCall.changeUpdateSet "None"] := by
  exact ⟨rfl, rfl, rfl⟩

/-! ### C6 — normalizer totality and top-level exception safety -/

/-- C6 counterexample: the Step Normalizer raises on a step that is not a
mapping (here the number `5`), and — because normalization happens outside
the `try` block — that exception escapes `execute_steps` instead of being
reported as a failed step. -/
theorem claim_C6_counterexample :
    exceptOk (_normalize_step (.num 5)) = false ∧
    exceptOk (execute_steps_full (oracleConst .null) (.arr [.num 5])
      true false false []) = false := by
  exact ⟨rfl, rfl⟩

/-! ### C8 — cache round trip for identical get steps -/

/-- C8 counterexample: two textually identical `get` steps do not always
lead to a single remote read.  When `params` carries the substitution
token `$step1.sys_id`, the first step resolves it against an empty context
(literal text) while the second resolves it to the identifier produced by
the first response, so the cache keys differ and two remote calls are
made. -/
theorem claim_C8_counterexample :
    (runCalls (execute_steps_full (oracleConst (.obj [("sys_id", .str "z")]))
        (.arr [.obj [("operation", .str "get"), ("table", .str "t"),
                     ("sys_id", .str "sid"),
                     ("params", .obj [("a", .str "$step1.sys_id")])],
               .obj [("operation", .str "get"), ("table", .str "t"),
                     ("sys_id", .str "sid"),
                     ("params", .obj [("a", .str "$step1.sys_id")])]])
        true true true [])).length = 2 := by
  decide

/-! ### C9 — reference-context write discipline -/

/-- C9 counterexample: for a create step answered with
`{"sys_id": "a", "result": {"sys_id": "b"}}`, the key `step1.sys_id` is
written twice during the execution of step 1 — once by the alias
registration (value `"a"`) and once by the response registration (value
`"b"`) — contradicting write-once per step execution. -/
theorem claim_C9_counterexample :
    runWrites (execute_steps_full
        (oracleConst (.obj [("sys_id", .str "a"), ("result", .obj [("sys_id", .str "b")])]))
        (.arr [.obj [("operation", .str "create"), ("table", .str "t")]])
        true false false []) =
      [(1, "step1.sys_id", .str "a"), (1, "step1.sys_id", .str "b")] := rfl

/-- Context registration does not touch the remote-call trace. -/
theorem register_aliases_calls (st : LoopState) (i : Nat) (cid table : String) :
    (_register_aliases st i cid table).calls = st.calls := by
  unfold _register_aliases ctxSet
  split <;> rfl

/-- Row registration does not touch the remote-call trace. -/
theorem register_rows_calls (i : Nat) :
    ∀ (j : Nat) (rows : List JVal) (st : LoopState),
      (_register_rows i j rows st).calls = st.calls := by
  intro j rows
  induction rows generalizing j with
  | nil => intro st; rfl
  | cons row rest ih =>
    intro st
    simp only [_register_rows]
    rw [ih]
    cases row <;> try rfl
    case obj rkvs =>
      simp only []
      cases dget rkvs "sys_id" with
      | none => rfl
      | some sid =>
        simp only []
        split
        · rfl
        · rfl

/-- Response registration does not touch the remote-call trace. -/
theorem register_ctx_calls (st : LoopState) (i : Nat) (body : JVal) :
    (_register_ctx_from_response st i body).calls = st.calls := by
  unfold _register_ctx_from_response
  cases body <;> try rfl
  case obj kvs =>
    cases hr : dget kvs "result" with
    | none => simp only [hr]
    | some r =>
      simp only [hr]
      cases r <;> try rfl
      case obj rkvs =>
        simp only []
        cases dget rkvs "sys_id" with
        | none => rfl
        | some sid =>
          simp only []
          split
          · rfl
          · rfl
      case arr rows =>
        simp only []
        rw [register_rows_calls]

/-- The remote calls of one dispatched step are exactly those of its
`try` block: outcome classification and context registration add none. -/
theorem dispatchStep_calls (sn : Oracle) (cg cs : Bool) (i : Nat) (s : NormStep)
    (st : LoopState) :
    (dispatchStep sn cg cs i s st).2.calls =
      (tryDispatch sn cg cs (_op_alias s.operation) s.table
        (substIfStr s.sys_id st.ctx) (substIfStr s.query st.ctx)
        (substPairs s.fields st.ctx) (substPairs s.params st.ctx) st).2.1.calls := by
  unfold dispatchStep
  simp only []
  repeat' split
  all_goals simp [register_ctx_calls, register_aliases_calls]

/-- C5 amended: collection is required for every operation — including
`note`, which has no dispatch branch at all and is rejected as unsupported
when a collection is present; a record identifier is required for `get`,
`update` and `delete` but not for `change_update_set`, which dispatches
the remote action with the stringified identifier (e.g. `"None"` when
absent); a filter is required for `query`.  Every violation is a local
validation error reported as a failed step with the run state untouched —
no remote call is made. -/
theorem claim_C5_validation (sn : Oracle) (cg cs : Bool) (i : Nat)
    (s : NormStep) (st : LoopState) :
    (s.table = "" →
      (dispatchStep sn cg cs i s st).1.ok = false ∧
      (dispatchStep sn cg cs i s st).1.error = some "ValueError: Step missing 'table'." ∧
      (dispatchStep sn cg cs i s st).2 = st) ∧
    (_op_alias s.operation = "update" → s.table ≠ "" →
      isTruthy (substIfStr s.sys_id st.ctx) = false →
      (dispatchStep sn cg cs i s st).1.ok = false ∧
      (dispatchStep sn cg cs i s st).1.error = some "ValueError: Update requires sys_id." ∧
      (dispatchStep sn cg cs i s st).2 = st) ∧
    (_op_alias s.operation = "delete" → s.table ≠ "" →
      isTruthy (substIfStr s.sys_id st.ctx) = false →
      (dispatchStep sn cg cs i s st).1.ok = false ∧
      (dispatchStep sn cg cs i s st).1.error = some "ValueError: Delete requires sys_id." ∧
      (dispatchStep sn cg cs i s st).2 = st) ∧
    (_op_alias s.operation = "get" → s.table ≠ "" →
      isTruthy (substIfStr s.sys_id st.ctx) = false →
      (dispatchStep sn cg cs i s st).1.ok = false ∧
      (dispatchStep sn cg cs i s st).1.error = some "ValueError: Get requires sys_id." ∧
      (dispatchStep sn cg cs i s st).2 = st) ∧
    (_op_alias s.operation = "query" → s.table ≠ "" →
      isTruthy (substIfStr s.query st.ctx) = false →
      (dispatchStep sn cg cs i s st).1.ok = false ∧
      (dispatchStep sn cg cs i s st).1.error =
        some "ValueError: Query requires query (sysparm_query)." ∧
      (dispatchStep sn cg cs i s st).2 = st) ∧
    (_op_alias s.operation ≠ "create" → _op_alias s.operation ≠ "update" →
      _op_alias s.operation ≠ "delete" → _op_alias s.operation ≠ "get" →
      _op_alias s.operation ≠ "query" → _op_alias s.operation ≠ "change_update_set" →
      s.table ≠ "" →
      (dispatchStep sn cg cs i s st).1.ok = false ∧
      (dispatchStep sn cg cs i s st).1.error =
        some ("ValueError: Unsupported operation: " ++ pyRepr (.str (_op_alias s.operation))) ∧
      (dispatchStep sn cg cs i s st).2 = st) ∧
    (_op_alias s.operation = "change_update_set" → s.table ≠ "" →
      (dispatchStep sn cg cs i s st).2.calls =
        st.calls ++ [RemoteCall.changeUpdateSet (pyStr (substIfStr s.sys_id st.ctx))]) := by
  refine ⟨dispatch_missing_table sn cg cs i s st, ?_, ?_, ?_, ?_, ?_, ?_⟩
  · intro hop ht hs
    simp [dispatchStep, tryDispatch, hop, ht, hs]
  · intro hop ht hs
    simp [dispatchStep, tryDispatch, hop, ht, hs]
  · intro hop ht hs
    simp [dispatchStep, tryDispatch, hop, ht, hs]
  · intro hop ht hq
    simp [dispatchStep, tryDispatch, hop, ht, hq]
  · intro h1 h2 h3 h4 h5 h6 ht
    simp [dispatchStep, tryDispatch, h1, h2, h3, h4, h5, h6, ht]
  · intro hop ht
    rw [dispatchStep_calls]
    simp [tryDispatch, hop, ht, callRemote]

/-- C5 witness: the validation characterization applied to a concrete
`note` step without a collection (local failure, no state change) and a
concrete `change_update_set` step without a record identifier (remote call
with the stringified `None`). -/
theorem claim_C5_witness :
    ((dispatchStep (oracleConst .null) false false 1
        (NormStep.mk "note" "" .null .null [] [] .null) (initState [])).1.ok = false ∧
      (dispatchStep (oracleConst .null) false false 1
        (NormStep.mk "note" "" .null .null [] [] .null) (initState [])).1.error =
        some "ValueError: Step missing 'table'." ∧
      (dispatchStep (oracleConst .null) false false 1
        (NormStep.mk "note" "" .null .null [] [] .null) (initState [])).2 = initState []) ∧
    ((dispatchStep (oracleConst .null) false false 1
        (NormStep.mk "change_update_set" "t" .null .null [] [] .null)
        (initState [])).2.calls =
      (initState []).calls ++
        [RemoteCall.changeUpdateSet (pyStr (substIfStr .null (initState []).ctx))]) :=
  ⟨(claim_C5_validation (oracleConst .null) false false 1
      (NormStep.mk "note" "" .null .null [] [] .null) (initState [])).1 rfl,
   (claim_C5_validation (oracleConst .null) false false 1
      (NormStep.mk "change_update_set" "t" .null .null [] [] .null)
      (initState [])).2.2.2.2.2.2 rfl (by decide)⟩

/-- Full evaluation of the normalizer on a mapping whose chosen
`operation` and `table` values are strings. -/
theorem normalize_step_obj (d : List (String × JVal)) (a b : String)
    (hop : pyOr (dgetD d "operation")
      (pyOr (dgetD d "action") (pyOr (dgetD d "op") (.str ""))) = .str a)
    (htb : pyOr (dgetD d "table") (.str "") = .str b) :
    _normalize_step (.obj d) = .ok (NormStep.mk (pyStrip a) (pyStrip b)
      (dgetD d "query")
      (pyOr (dgetD d "sys_id") (dgetD d "sysId"))
      (match pyOr (dgetD d "fields") (pyOr (dgetD d "data") (.obj [])) with
        | .obj kvs => kvs
        | _ => [])
      (match pyOr (dgetD d "params") (.obj []) with
        | .obj kvs => kvs
        | _ => [])
      (pyOr (dgetD d "note") (dgetD d "description"))) := by
  simp only [_normalize_step, bind, Except.bind]
  rw [hop, htb]

/-- C6 amended: the Step Normalizer never raises on a mapping step whose
chosen `operation`/`table` values are strings; a fully malformed mapping
degrades to a step with empty operation and collection, which the
dispatcher rejects with a local validation error.  But the normalizer does
raise on a step that is not a mapping (e.g. the number `5`), and since it
runs outside the `try` block that exception escapes `execute_steps`. -/
theorem claim_C6_normalizer :
    (∀ (d : List (String × JVal)) (a b : String),
      pyOr (dgetD d "operation")
        (pyOr (dgetD d "action") (pyOr (dgetD d "op") (.str ""))) = .str a →
      pyOr (dgetD d "table") (.str "") = .str b →
      exceptOk (_normalize_step (.obj d)) = true) ∧
    (_normalize_step (.obj []) = .ok (NormStep.mk "" "" .null .null [] [] .null)) ∧
    (∀ (sn : Oracle) (cg cs : Bool) (i : Nat) (st : LoopState),
      (dispatchStep sn cg cs i (NormStep.mk "" "" .null .null [] [] .null) st).1.ok = false ∧
      (dispatchStep sn cg cs i (NormStep.mk "" "" .null .null [] [] .null) st).1.error =
        some "ValueError: Step missing 'table'." ∧
      (dispatchStep sn cg cs i (NormStep.mk "" "" .null .null [] [] .null) st).2 = st) ∧
    (exceptOk (_normalize_step (.num 5)) = false ∧
      exceptOk (execute_steps_full (oracleConst .null) (.arr [.num 5])
        true false false []) = false) := by
  refine ⟨?_, rfl, ?_, rfl, rfl⟩
  · intro d a b hop htb
    rw [normalize_step_obj d a b hop htb]
    rfl
  · intro sn cg cs i st
    exact dispatch_missing_table sn cg cs i _ st rfl

/-- C6 witness: the normalizer succeeds on a concrete malformed mapping
(`{"operation": None, "fields": 7}`) which degrades to the empty step. -/
theorem claim_C6_witness :
    exceptOk (_normalize_step (.obj [("operation", .null), ("fields", .num 7)])) = true :=
  (claim_C6_normalizer).1 [("operation", .null), ("fields", .num 7)] "" "" rfl rfl

/-- A one-step tail of the loop produces the dispatched result and state
regardless of `stop_on_error`. -/
theorem runLoop_single (sn : Oracle) (stop cg cs : Bool) (i : Nat) (st : LoopState)
    (B : JVal) (sB : NormStep) (hB : _normalize_step B = .ok sB) :
    runLoop sn stop cg cs i st [B] =
      .ok ([(dispatchStep sn cg cs i sB st).1], (dispatchStep sn cg cs i sB st).2) := by
  simp only [runLoop, hB]
  split
  · rfl
  · rfl

/-- Unfolding of the loop on a successful head step. -/
theorem runLoop_cons_ok (sn : Oracle) (stop cg cs : Bool) (i : Nat) (st : LoopState)
    (A : JVal) (rest : List JVal) (sA : NormStep)
    (hA : _normalize_step A = .ok sA)
    (hOk : (dispatchStep sn cg cs i sA st).1.ok = true) :
    runLoop sn stop cg cs i st (A :: rest) =
      match runLoop sn stop cg cs (i + 1) (dispatchStep sn cg cs i sA st).2 rest with
      | .error e => .error e
      | .ok (more, st') => .ok ((dispatchStep sn cg cs i sA st).1 :: more, st') := by
  simp only [runLoop, hA, hOk]
  simp

/-! ### C2 — forward reference from create to update -/

/-- C2: for a two-step plan `[create(table=X, fields=F),
update(table=X, sys_id="$step1.sys_id", fields=Fu)]` where the remote
create call returns `{"sys_id": "deadbeef"}` and raises no error, the
second step's remote update is dispatched with record identifier
`"deadbeef"`. -/
theorem claim_C2_forward_reference (sn : Oracle) (stop cg cs : Bool)
    (X : String) (F Fu : List (String × JVal))
    (hX : X ≠ "") (hXt : pyStrip X ≠ "")
    (hsn : ∀ c, sn 0 c = .ok (.obj [("sys_id", .str "deadbeef")])) :
    ∃ f2, runCalls (execute_steps_full sn (.arr
        [.obj [("operation", .str "create"), ("table", .str X), ("fields", .obj F)],
         .obj [("operation", .str "update"), ("table", .str X),
               ("sys_id", .str "$step1.sys_id"), ("fields", .obj Fu)]])
        stop cg cs []) =
      [RemoteCall.create (pyStrip X) (substPairs F []),
       RemoteCall.update (pyStrip X) "deadbeef" f2] := by
  have hpt : pyOr (.str X) (.str "") = .str X := by
    simp [pyOr, isTruthy, hX]
  have hopC : _op_alias "create" = "create" := rfl
  have hopU : _op_alias "update" = "update" := rfl
  have hn1 : _normalize_step (.obj [("operation", .str "create"), ("table", .str X),
      ("fields", .obj F)]) =
      .ok (NormStep.mk "create" (pyStrip X) .null .null F [] .null) := by
    rw [normalize_step_obj [("operation", .str "create"), ("table", .str X),
      ("fields", .obj F)] "create" X rfl hpt]
    cases F <;> rfl
  have hn2 : _normalize_step (.obj [("operation", .str "update"), ("table", .str X),
      ("sys_id", .str "$step1.sys_id"), ("fields", .obj Fu)]) =
      .ok (NormStep.mk "update" (pyStrip X) .null (.str "$step1.sys_id") Fu [] .null) := by
    rw [normalize_step_obj [("operation", .str "update"), ("table", .str X),
      ("sys_id", .str "$step1.sys_id"), ("fields", .obj Fu)] "update" X rfl hpt]
    cases Fu <;> rfl
  have hd1ok : (dispatchStep sn cg cs 1
      (NormStep.mk "create" (pyStrip X) .null .null F [] .null) (initState [])).1.ok = true := by
    simp [dispatchStep, tryDispatch, callRemote, hXt, hsn, initState, substIfStr,
      dget, _extract_sys_id, hopC]
  have hkey : ("step" ++ toString 1 ++ ".sys_id" : String) = "step1.sys_id" := rfl
  by_cases hsc : pyStrip X = "sc_cat_item"
  all_goals {
    have hctxA : (dispatchStep sn cg cs 1
        (NormStep.mk "create" (pyStrip X) .null .null F [] .null) (initState [])).2.ctx =
        (if pyStrip X = "sc_cat_item" then
          [("step1.sys_id", JVal.str "deadbeef"), ("CAT_ITEM_SYS_ID", JVal.str "deadbeef")]
         else [("step1.sys_id", JVal.str "deadbeef")]) := by
      simp [dispatchStep, tryDispatch, callRemote, hXt, hsn, initState, substIfStr,
        dget, _extract_sys_id, _register_aliases, _register_ctx_from_response, ctxSet,
        dset, hsc, hopC, hkey]
    have hcallsA : (dispatchStep sn cg cs 1
        (NormStep.mk "create" (pyStrip X) .null .null F [] .null) (initState [])).2.calls =
        [RemoteCall.create (pyStrip X) (substPairs F [])] := by
      simp [dispatchStep, tryDispatch, callRemote, hXt, hsn, initState, substIfStr,
        dget, _extract_sys_id, _register_aliases, _register_ctx_from_response, ctxSet,
        dset, hsc, hopC, hkey]
    have hsub : substStr "$step1.sys_id"
        (dispatchStep sn cg cs 1
          (NormStep.mk "create" (pyStrip X) .null .null F [] .null) (initState [])).2.ctx =
        "deadbeef" := by
      rw [hctxA]
      simp only [hsc]
      decide
    have hcalls2 : (dispatchStep sn cg cs 2
        (NormStep.mk "update" (pyStrip X) .null (.str "$step1.sys_id") Fu [] .null)
        (dispatchStep sn cg cs 1
          (NormStep.mk "create" (pyStrip X) .null .null F [] .null) (initState [])).2).2.calls =
        (dispatchStep sn cg cs 1
          (NormStep.mk "create" (pyStrip X) .null .null F [] .null) (initState [])).2.calls ++
        [RemoteCall.update (pyStrip X) "deadbeef"
          (substPairs Fu (dispatchStep sn cg cs 1
            (NormStep.mk "create" (pyStrip X) .null .null F [] .null) (initState [])).2.ctx)] := by
      rw [dispatchStep_calls]
      simp [tryDispatch, callRemote, hXt, substIfStr, hsub, isTruthy, pyStr, hopU]
    refine ⟨substPairs Fu (dispatchStep sn cg cs 1
        (NormStep.mk "create" (pyStrip X) .null .null F [] .null) (initState [])).2.ctx, ?_⟩
    unfold execute_steps_full
    have hx : _extract_steps (.arr
        [.obj [("operation", .str "create"), ("table", .str X), ("fields", .obj F)],
         .obj [("operation", .str "update"), ("table", .str X),
               ("sys_id", .str "$step1.sys_id"), ("fields", .obj Fu)]]) =
        .ok [.obj [("operation", .str "create"), ("table", .str X), ("fields", .obj F)],
             .obj [("operation", .str "update"), ("table", .str X),
                   ("sys_id", .str "$step1.sys_id"), ("fields", .obj Fu)]] := rfl
    rw [hx]
    simp only []
    rw [runLoop_cons_ok sn stop cg cs 1 (initState []) _ _ _ hn1 hd1ok]
    rw [runLoop_single sn stop cg cs 2 _ _ _ hn2]
    simp only [runCalls]
    rw [hcalls2, hcallsA]
    rfl
  }

/-- C2 witness: the forward-reference theorem applied to a concrete
two-step plan on table `x`. -/
theorem claim_C2_witness :
    ∃ f2, runCalls (execute_steps_full (oracleConst (.obj [("sys_id", .str "deadbeef")]))
        (.arr [.obj [("operation", .str "create"), ("table", .str "x"),
                     ("fields", .obj [("a", .num 1)])],
               .obj [("operation", .str "update"), ("table", .str "x"),
                     ("sys_id", .str "$step1.sys_id"),
                     ("fields", .obj [("a", .num 1)])]])
        true false false []) =
      [RemoteCall.create (pyStrip "x") (substPairs [("a", .num 1)] []),
       RemoteCall.update (pyStrip "x") "deadbeef" f2] :=
  claim_C2_forward_reference (oracleConst (.obj [("sys_id", .str "deadbeef")]))
    true false false "x" [("a", .num 1)] [("a", .num 1)]
    (by decide) (by decide) (fun _ => rfl)

/-! ### C1 — context registration for query results (amended) -/

/-- A substitution pass against the empty context reproduces its input:
unresolved tokens are emitted as their original text. -/
theorem subPassF_nil_ctx (m : List Char → Option (Nat × String)) :
    ∀ (fuel : Nat) (cs : List Char), subPassF m [] fuel cs = cs := by
  intro fuel
  induction fuel with
  | zero => intro cs; rfl
  | succ f ih =>
    intro cs
    cases cs with
    | nil => rfl
    | cons c cs' =>
      simp only [subPassF]
      cases m (c :: cs') with
      | none => rw [ih]
      | some p =>
        obtain ⟨n, key⟩ := p
        simp only [dget]
        split
        · rw [ih, List.take_append_drop]
        · rw [ih]

/-- String substitution against the empty context is the identity. -/
theorem substStr_nil_ctx (s : String) : substStr s [] = s := by
  unfold substStr subPass
  rw [subPassF_nil_ctx, subPassF_nil_ctx, subPassF_nil_ctx]

/-- Context writes already present survive row registration. -/
theorem register_rows_writes_mono (i : Nat) :
    ∀ (j : Nat) (rows : List JVal) (st : LoopState) (w : Nat × String × JVal),
      w ∈ st.writes → w ∈ (_register_rows i j rows st).writes := by
  intro j rows
  induction rows generalizing j with
  | nil => intro st w hw; exact hw
  | cons row rest ih =>
    intro st w hw
    simp only [_register_rows]
    apply ih
    cases row <;> try exact hw
    case obj rkvs =>
      simp only []
      cases dget rkvs "sys_id" with
      | none => exact hw
      | some sid =>
        simp only []
        split
        · exact List.mem_append_left _ hw
        · exact hw

/-- Row registration records a write for every row that is a dict with a
truthy `sys_id`. -/
theorem register_rows_writes_mem (i : Nat) :
    ∀ (j k : Nat) (rows : List JVal) (st : LoopState) (r : List (String × JVal)) (sid : JVal),
      rows.get? k = some (.obj r) → dget r "sys_id" = some sid → isTruthy sid = true →
      (i, "step" ++ toString i ++ ".result[" ++ toString (j + k) ++ "].sys_id", sid) ∈
        (_register_rows i j rows st).writes := by
  intro j k rows
  induction rows generalizing j k with
  | nil => intro st r sid hk; simp at hk
  | cons row rest ih =>
    intro st r sid hk hs htr
    cases k with
    | zero =>
      simp only [List.get?] at hk
      injection hk with hk
      subst hk
      simp only [_register_rows, hs, htr, if_pos]
      apply register_rows_writes_mono
      simp [ctxSet]
    | succ k' =>
      simp only [List.get?] at hk
      simp only [_register_rows]
      have harith : j + (k' + 1) = j + 1 + k' := by omega
      rw [harith]
      exact ih (j + 1) k' _ r sid hk hs htr

/-- Response registration on a body of shape `{"result": [rows]}` is
exactly the row registration. -/
theorem register_ctx_result_list (st : LoopState) (i : Nat) (rows : List JVal) :
    _register_ctx_from_response st i (.obj [("result", .arr rows)]) =
      _register_rows i 0 rows st := rfl

/-- C1 amended: for a query step whose successful response body is
`{"result": rows}`, the engine registers `step1.result[k].sys_id` for
every row `k` that carries a truthy `sys_id` — and, when the first row
carries a nonempty string `sys_id`, it additionally registers
`step1.sys_id` with that first identifier (the identifier-extraction
fallback), contrary to the original claim that `step1.sys_id` is left
unset. -/
theorem claim_C1_query_ctx (sn : Oracle) (stop : Bool) (t q : String)
    (rows : List JVal)
    (ht : t ≠ "") (htt : pyStrip t ≠ "") (hq : q ≠ "")
    (hsn : ∀ c, sn 0 c = .ok (.obj [("result", .arr rows)])) :
    (∀ (k : Nat) (r : List (String × JVal)) (sid : JVal),
      rows.get? k = some (.obj r) → dget r "sys_id" = some sid → isTruthy sid = true →
      (1, "step1.result[" ++ toString k ++ "].sys_id", sid) ∈
        runWrites (execute_steps_full sn
          (.arr [.obj [("operation", .str "query"), ("table", .str t), ("query", .str q)]])
          stop false false [])) ∧
    (∀ (r : List (String × JVal)) (s0 : String),
      rows.get? 0 = some (.obj r) → dget r "sys_id" = some (.str s0) → s0 ≠ "" →
      (1, "step1.sys_id", JVal.str s0) ∈
        runWrites (execute_steps_full sn
          (.arr [.obj [("operation", .str "query"), ("table", .str t), ("query", .str q)]])
          stop false false [])) := by
  have hpt : pyOr (.str t) (.str "") = .str t := by
    simp [pyOr, isTruthy, ht]
  have hopQ : _op_alias "query" = "query" := rfl
  have hn1 : _normalize_step (.obj [("operation", .str "query"), ("table", .str t),
      ("query", .str q)]) =
      .ok (NormStep.mk "query" (pyStrip t) (.str q) .null [] [] .null) := by
    rw [normalize_step_obj [("operation", .str "query"), ("table", .str t),
      ("query", .str q)] "query" t rfl hpt]
    rfl
  have h25 : (toString (25 : Int)) = "25" := rfl
  have hkey : ("step" ++ toString 1 ++ ".sys_id" : String) = "step1.sys_id" := rfl
  have hfin : ∃ stPre : LoopState,
      (dispatchStep sn false false 1
        (NormStep.mk "query" (pyStrip t) (.str q) .null [] [] .null) (initState [])).2 =
        _register_rows 1 0 rows stPre ∧
      (∀ (r : List (String × JVal)) (s0 : String),
        rows.get? 0 = some (.obj r) → dget r "sys_id" = some (.str s0) → s0 ≠ "" →
        (1, "step1.sys_id", JVal.str s0) ∈ stPre.writes) := by
    rcases hext : _extract_sys_id (.obj [("result", .arr rows)]) with _ | cid
    · refine ⟨⟨[], [], [RemoteCall.query (pyStrip t) q 25 [("sysparm_limit", .str "25")]], []⟩,
        ?_, ?_⟩
      · rw [← register_ctx_result_list]
        simp [dispatchStep, tryDispatch, missQuery, callRemote, hsn, htt, hq,
          substStr_nil_ctx, hext, substIfStr, initState, hopQ, isTruthy, dget, pyStr,
          substPairs, h25]
      · intro r s0 h0 hs hne
        exfalso
        cases rows with
        | nil => simp at h0
        | cons row rest =>
          simp only [List.get?] at h0
          injection h0 with h0
          subst h0
          simp [_extract_sys_id, dget, hs] at hext
    · by_cases hcid : cid = ""
      · subst hcid
        refine ⟨⟨[], [], [RemoteCall.query (pyStrip t) q 25 [("sysparm_limit", .str "25")]], []⟩,
          ?_, ?_⟩
        · rw [← register_ctx_result_list]
          simp [dispatchStep, tryDispatch, missQuery, callRemote, hsn, htt, hq,
            substStr_nil_ctx, hext, substIfStr, initState, hopQ, isTruthy, dget, pyStr,
            substPairs, h25]
        · intro r s0 h0 hs hne
          exfalso
          cases rows with
          | nil => simp at h0
          | cons row rest =>
            simp only [List.get?] at h0
            injection h0 with h0
            subst h0
            simp [_extract_sys_id, dget, hs] at hext
            exact hne hext
      · refine ⟨_register_aliases
            ⟨[], [], [RemoteCall.query (pyStrip t) q 25 [("sysparm_limit", .str "25")]], []⟩
            1 cid (pyStrip t), ?_, ?_⟩
        · rw [← register_ctx_result_list]
          simp [dispatchStep, tryDispatch, missQuery, callRemote, hsn, htt, hq,
            substStr_nil_ctx, hext, hcid, substIfStr, initState, hopQ, isTruthy, dget,
            pyStr, substPairs, h25]
        · intro r s0 h0 hs hne
          have hcs : cid = s0 := by
            cases rows with
            | nil => simp at h0
            | cons row rest =>
              simp only [List.get?] at h0
              injection h0 with h0
              subst h0
              simp [_extract_sys_id, dget, hs] at hext
              exact hext.symm
          subst hcs
          unfold _register_aliases
          split
          · simp [ctxSet, hkey]
          · simp [ctxSet, hkey]
  obtain ⟨stPre, heq, hpre⟩ := hfin
  have hrw : runWrites (execute_steps_full sn
      (.arr [.obj [("operation", .str "query"), ("table", .str t), ("query", .str q)]])
      stop false false []) = (_register_rows 1 0 rows stPre).writes := by
    unfold execute_steps_full
    have hx : _extract_steps (.arr [.obj [("operation", .str "query"), ("table", .str t),
        ("query", .str q)]]) =
        .ok [.obj [("operation", .str "query"), ("table", .str t), ("query", .str q)]] := rfl
    rw [hx]
    simp only []
    rw [runLoop_single sn stop false false 1 (initState []) _ _ hn1]
    simp only [runWrites]
    rw [heq]
  constructor
  · intro k r sid hk hs htr
    rw [hrw]
    have := register_rows_writes_mem 1 0 k rows stPre r sid hk hs htr
    rwa [Nat.zero_add] at this
  · intro r s0 h0 hs hne
    rw [hrw]
    exact register_rows_writes_mono 1 0 rows stPre _ (hpre r s0 h0 hs hne)

/-- C1 witness: the amended registration theorem applied to a concrete
query step returning two rows. -/
theorem claim_C1_witness :
    (1, "step1.result[" ++ toString 1 ++ "].sys_id", JVal.str "r2") ∈
      runWrites (execute_steps_full
        (oracleConst (.obj [("result",
          .arr [.obj [("sys_id", .str "r1")], .obj [("sys_id", .str "r2")]])]))
        (.arr [.obj [("operation", .str "query"), ("table", .str "t"), ("query", .str "q")]])
        true false false []) ∧
    (1, "step1.sys_id", JVal.str "r1") ∈
      runWrites (execute_steps_full
        (oracleConst (.obj [("result",
          .arr [.obj [("sys_id", .str "r1")], .obj [("sys_id", .str "r2")]])]))
        (.arr [.obj [("operation", .str "query"), ("table", .str "t"), ("query", .str "q")]])
        true false false []) :=
  ⟨(claim_C1_query_ctx (oracleConst (.obj [("result",
      .arr [.obj [("sys_id", .str "r1")], .obj [("sys_id", .str "r2")]])]))
      true "t" "q" [.obj [("sys_id", .str "r1")], .obj [("sys_id", .str "r2")]]
      (by decide) (by decide) (by decide) (fun _ => rfl)).1
      1 [("sys_id", .str "r2")] (.str "r2") rfl rfl (by decide),
   (claim_C1_query_ctx (oracleConst (.obj [("result",
      .arr [.obj [("sys_id", .str "r1")], .obj [("sys_id", .str "r2")]])]))
      true "t" "q" [.obj [("sys_id", .str "r1")], .obj [("sys_id", .str "r2")]]
      (by decide) (by decide) (by decide) (fun _ => rfl)).2
      [("sys_id", .str "r1")] "r1" rfl rfl (by decide)⟩

/-! ### C8 — cache round trip (amended) -/

/-- Context registration does not touch the cache. -/
theorem register_aliases_cache (st : LoopState) (i : Nat) (cid table : String) :
    (_register_aliases st i cid table).cache = st.cache := by
  unfold _register_aliases ctxSet
  split <;> rfl

/-- Row registration does not touch the cache. -/
theorem register_rows_cache (i : Nat) :
    ∀ (j : Nat) (rows : List JVal) (st : LoopState),
      (_register_rows i j rows st).cache = st.cache := by
  intro j rows
  induction rows generalizing j with
  | nil => intro st; rfl
  | cons row rest ih =>
    intro st
    simp only [_register_rows]
    rw [ih]
    cases row <;> try rfl
    case obj rkvs =>
      simp only []
      cases dget rkvs "sys_id" with
      | none => rfl
      | some sid =>
        simp only []
        split
        · rfl
        · rfl

/-- Response registration does not touch the cache. -/
theorem register_ctx_cache (st : LoopState) (i : Nat) (body : JVal) :
    (_register_ctx_from_response st i body).cache = st.cache := by
  unfold _register_ctx_from_response
  cases body <;> try rfl
  case obj kvs =>
    cases hr : dget kvs "result" with
    | none => simp only [hr]
    | some r =>
      simp only [hr]
      cases r <;> try rfl
      case obj rkvs =>
        simp only []
        cases dget rkvs "sys_id" with
        | none => rfl
        | some sid =>
          simp only []
          split
          · rfl
          · rfl
      case arr rows =>
        simp only []
        rw [register_rows_cache]

/-- The cache after one dispatched step is exactly that of its `try`
block: registration adds nothing. -/
theorem dispatchStep_cache (sn : Oracle) (cg cs : Bool) (i : Nat) (s : NormStep)
    (st : LoopState) :
    (dispatchStep sn cg cs i s st).2.cache =
      (tryDispatch sn cg cs (_op_alias s.operation) s.table
        (substIfStr s.sys_id st.ctx) (substIfStr s.query st.ctx)
        (substPairs s.fields st.ctx) (substPairs s.params st.ctx) st).2.1.cache := by
  unfold dispatchStep
  simp only []
  repeat' split
  all_goals simp [register_ctx_cache, register_aliases_cache]

/-- C8 amended: two textually identical `get` steps lead to exactly one
remote read — the second being answered from the cache with an identical
body — provided the run starts with an empty cache, the identifier and
params contain no substitution tokens (are substitution-invariant), and
the first response is an object body carrying no error envelope. -/
theorem claim_C8_cache (sn : Oracle) (stop : Bool) (t S : String)
    (P : List (String × JVal)) (kvsB : List (String × JVal))
    (ht : t ≠ "") (htt : pyStrip t ≠ "") (hSne : S ≠ "")
    (hS : ∀ c, substStr S c = S) (hP : ∀ c, substPairs P c = P)
    (henv : dget kvsB "error" = none)
    (hsn : ∀ c, sn 0 c = .ok (.obj kvsB)) :
    runCalls (execute_steps_full sn (.arr
      [.obj [("operation", .str "get"), ("table", .str t), ("sys_id", .str S),
             ("params", .obj P)],
       .obj [("operation", .str "get"), ("table", .str t), ("sys_id", .str S),
             ("params", .obj P)]]) stop true true []) =
      [RemoteCall.get (pyStrip t) S P] ∧
    (runSteps (execute_steps_full sn (.arr
      [.obj [("operation", .str "get"), ("table", .str t), ("sys_id", .str S),
             ("params", .obj P)],
       .obj [("operation", .str "get"), ("table", .str t), ("sys_id", .str S),
             ("params", .obj P)]]) stop true true [])).map (fun r => r.response) =
      [.obj kvsB, .obj kvsB] := by
  have hpt : pyOr (.str t) (.str "") = .str t := by
    simp [pyOr, isTruthy, ht]
  have hps : pyOr (.str S) (.null) = .str S := by
    simp [pyOr, isTruthy, hSne]
  have hopG : _op_alias "get" = "get" := rfl
  have hn : _normalize_step (.obj [("operation", .str "get"), ("table", .str t),
      ("sys_id", .str S), ("params", .obj P)]) =
      .ok (NormStep.mk "get" (pyStrip t) .null (.str S) [] P .null) := by
    rw [normalize_step_obj [("operation", .str "get"), ("table", .str t),
      ("sys_id", .str S), ("params", .obj P)] "get" t rfl hpt]
    conv_rhs => rw [← hps]
    cases P <;> rfl
  have hd1ok : (dispatchStep sn true true 1
      (NormStep.mk "get" (pyStrip t) .null (.str S) [] P .null) (initState [])).1.ok = true := by
    simp [dispatchStep, tryDispatch, missGet, callRemote, hsn, htt, substIfStr, hS, hP,
      hSne, isTruthy, initState, hopG, henv, dget, pyStr, isNull]
  have hd1resp : (dispatchStep sn true true 1
      (NormStep.mk "get" (pyStrip t) .null (.str S) [] P .null) (initState [])).1.response =
      .obj kvsB := by
    simp [dispatchStep, tryDispatch, missGet, callRemote, hsn, htt, substIfStr, hS, hP,
      hSne, isTruthy, initState, hopG, henv, dget, pyStr, isNull]
  have hcallsA : (dispatchStep sn true true 1
      (NormStep.mk "get" (pyStrip t) .null (.str S) [] P .null) (initState [])).2.calls =
      [RemoteCall.get (pyStrip t) S P] := by
    rw [dispatchStep_calls]
    simp [tryDispatch, missGet, callRemote, hS, hP, substIfStr, htt, hSne, isTruthy, hsn,
      initState, hopG, pyStr, dget, dset]
  have hcacheA : (dispatchStep sn true true 1
      (NormStep.mk "get" (pyStrip t) .null (.str S) [] P .null) (initState [])).2.cache =
      [(_cache_key "get" (pyStrip t) (some S) none P, .obj kvsB)] := by
    rw [dispatchStep_cache]
    simp [tryDispatch, missGet, callRemote, hS, hP, substIfStr, htt, hSne, isTruthy, hsn,
      initState, hopG, pyStr, dget, dset]
  have hd2resp : (dispatchStep sn true true 2
      (NormStep.mk "get" (pyStrip t) .null (.str S) [] P .null)
      (dispatchStep sn true true 1
        (NormStep.mk "get" (pyStrip t) .null (.str S) [] P .null) (initState [])).2).1.response =
      .obj kvsB := by
    generalize hgen : (dispatchStep sn true true 1
      (NormStep.mk "get" (pyStrip t) .null (.str S) [] P .null) (initState [])).2 = stA
        at hcacheA ⊢
    simp [dispatchStep, tryDispatch, missGet, substIfStr, hS, hP, hSne, isTruthy,
      hcacheA, dget, isNull, hopG, htt, pyStr, henv]
  have hd2ok : (dispatchStep sn true true 2
      (NormStep.mk "get" (pyStrip t) .null (.str S) [] P .null)
      (dispatchStep sn true true 1
        (NormStep.mk "get" (pyStrip t) .null (.str S) [] P .null) (initState [])).2).1.ok =
      true := by
    generalize hgen : (dispatchStep sn true true 1
      (NormStep.mk "get" (pyStrip t) .null (.str S) [] P .null) (initState [])).2 = stA
        at hcacheA ⊢
    simp [dispatchStep, tryDispatch, missGet, substIfStr, hS, hP, hSne, isTruthy,
      hcacheA, dget, isNull, hopG, htt, pyStr, henv]
  have hcalls2 : (dispatchStep sn true true 2
      (NormStep.mk "get" (pyStrip t) .null (.str S) [] P .null)
      (dispatchStep sn true true 1
        (NormStep.mk "get" (pyStrip t) .null (.str S) [] P .null) (initState [])).2).2.calls =
      (dispatchStep sn true true 1
        (NormStep.mk "get" (pyStrip t) .null (.str S) [] P .null) (initState [])).2.calls := by
    generalize hgen : (dispatchStep sn true true 1
      (NormStep.mk "get" (pyStrip t) .null (.str S) [] P .null) (initState [])).2 = stA
        at hcacheA ⊢
    rw [dispatchStep_calls]
    simp [tryDispatch, missGet, callRemote, substIfStr, hS, hP, hSne, isTruthy, hcacheA,
      dget, isNull, hopG, htt, pyStr]
  have hrun : execute_steps_full sn (.arr
      [.obj [("operation", .str "get"), ("table", .str t), ("sys_id", .str S),
             ("params", .obj P)],
       .obj [("operation", .str "get"), ("table", .str t), ("sys_id", .str S),
             ("params", .obj P)]]) stop true true [] =
      .ok (⟨reportOk [(dispatchStep sn true true 1
              (NormStep.mk "get" (pyStrip t) .null (.str S) [] P .null) (initState [])).1,
            (dispatchStep sn true true 2
              (NormStep.mk "get" (pyStrip t) .null (.str S) [] P .null)
              (dispatchStep sn true true 1
                (NormStep.mk "get" (pyStrip t) .null (.str S) [] P .null)
                (initState [])).2).1],
            [(dispatchStep sn true true 1
              (NormStep.mk "get" (pyStrip t) .null (.str S) [] P .null) (initState [])).1,
            (dispatchStep sn true true 2
              (NormStep.mk "get" (pyStrip t) .null (.str S) [] P .null)
              (dispatchStep sn true true 1
                (NormStep.mk "get" (pyStrip t) .null (.str S) [] P .null)
                (initState [])).2).1]⟩,
           (dispatchStep sn true true 2
             (NormStep.mk "get" (pyStrip t) .null (.str S) [] P .null)
             (dispatchStep sn true true 1
               (NormStep.mk "get" (pyStrip t) .null (.str S) [] P .null)
               (initState [])).2).2) := by
    unfold execute_steps_full
    have hx : _extract_steps (.arr
        [.obj [("operation", .str "get"), ("table", .str t), ("sys_id", .str S),
               ("params", .obj P)],
         .obj [("operation", .str "get"), ("table", .str t), ("sys_id", .str S),
               ("params", .obj P)]]) =
        .ok [.obj [("operation", .str "get"), ("table", .str t), ("sys_id", .str S),
                   ("params", .obj P)],
             .obj [("operation", .str "get"), ("table", .str t), ("sys_id", .str S),
                   ("params", .obj P)]] := rfl
    rw [hx]
    simp only []
    rw [runLoop_cons_ok sn stop true true 1 (initState []) _ _ _ hn hd1ok]
    rw [runLoop_single sn stop true true 2 _ _ _ hn]
  constructor
  · rw [hrun]
    simp only [runCalls]
    rw [hcalls2, hcallsA]
  · rw [hrun]
    simp only [runSteps, List.map]
    rw [hd1resp, hd2resp]

/-- C8 witness: the cache round-trip theorem applied to two concrete
identical token-free `get` steps. -/
theorem claim_C8_witness :
    runCalls (execute_steps_full (oracleConst (.obj [("sys_id", .str "z")])) (.arr
      [.obj [("operation", .str "get"), ("table", .str "t"), ("sys_id", .str "sid"),
             ("params", .obj [("a", .str "b")])],
       .obj [("operation", .str "get"), ("table", .str "t"), ("sys_id", .str "sid"),
             ("params", .obj [("a", .str "b")])]]) true true true []) =
      [RemoteCall.get (pyStrip "t") "sid" [("a", .str "b")]] ∧
    (runSteps (execute_steps_full (oracleConst (.obj [("sys_id", .str "z")])) (.arr
      [.obj [("operation", .str "get"), ("table", .str "t"), ("sys_id", .str "sid"),
             ("params", .obj [("a", .str "b")])],
       .obj [("operation", .str "get"), ("table", .str "t"), ("sys_id", .str "sid"),
             ("params", .obj [("a", .str "b")])]]) true true true [])).map
      (fun r => r.response) =
      [.obj [("sys_id", .str "z")], .obj [("sys_id", .str "z")]] :=
  claim_C8_cache (oracleConst (.obj [("sys_id", .str "z")])) true "t" "sid"
    [("a", .str "b")] [("sys_id", .str "z")]
    (by decide) (by decide) (by decide) (fun _ => rfl) (fun _ => rfl) rfl (fun _ => rfl)

/-! ### C7 — token substitution -/

/-- `matchLit` succeeds on its own literal prefix. -/
theorem matchLit_append (p : List Char) : ∀ r, matchLit (p ++ r) p = some r := by
  induction p with
  | nil =>
    intro r
    rw [List.nil_append]
    cases r <;> rfl
  | cons c p' ih =>
    intro r
    simp only [List.cons_append, matchLit, if_pos]
    exact ih r

/-- `matchLit` fails when the first literal character differs. -/
theorem matchLit_ne (c : Char) (cs : List Char) (d : Char) (ps : List Char)
    (h : c ≠ d) : matchLit (c :: cs) (d :: ps) = none := by
  simp [matchLit, h]

/-- `takeWhile` passes over a fully satisfying prefix. -/
theorem takeWhile_append_all (p : Char → Bool) :
    ∀ (l r : List Char), (∀ c ∈ l, p c = true) →
      (l ++ r).takeWhile p = l ++ r.takeWhile p := by
  intro l
  induction l with
  | nil => intro r _; rfl
  | cons c l' ih =>
    intro r hall
    have hc : p c = true := hall c (by simp)
    simp only [List.cons_append, List.takeWhile_cons, hc]
    rw [ih r (fun d hd => hall d (by simp [hd]))]
    simp

/-- Dropping the length of an appended prefix. -/
theorem drop_append_len (l : List Char) : ∀ r : List Char, (l ++ r).drop l.length = r := by
  induction l with
  | nil => intro r; rfl
  | cons c l' ih => intro r; simp [ih r]

/-- Evaluation of the `$stepN.sys_id` matcher on an exact token. -/
theorem matchSysIdTok_eval (ds : List Char) (hne : ds ≠ [])
    (hdig : ∀ c ∈ ds, c.isDigit = true) :
    matchSysIdTok ("$step".data ++ ds ++ ".sys_id".data) =
      some (5 + ds.length + 7, "step" ++ String.mk ds ++ ".sys_id") := by
  unfold matchSysIdTok
  rw [List.append_assoc, matchLit_append]
  simp only [Option.bind_eq_bind, Option.some_bind]
  rw [takeWhile_append_all Char.isDigit ds (".sys_id".data) hdig]
  rw [show (".sys_id".data).takeWhile Char.isDigit = [] from rfl, List.append_nil]
  have hml : matchLit (".sys_id".data) (".sys_id".data) = some [] := rfl
  simp [hne, drop_append_len, hml]

/-- The `$stepN.result[i].sys_id` matcher fails on a `$stepN.sys_id`
token. -/
theorem matchResultTok_none (ds : List Char)
    (hdig : ∀ c ∈ ds, c.isDigit = true) :
    matchResultTok ("$step".data ++ ds ++ ".sys_id".data) = none := by
  unfold matchResultTok
  rw [List.append_assoc, matchLit_append]
  simp only [Option.bind_eq_bind, Option.some_bind]
  rw [takeWhile_append_all Char.isDigit ds (".sys_id".data) hdig]
  rw [show (".sys_id".data).takeWhile Char.isDigit = [] from rfl, List.append_nil]
  by_cases hne : ds = []
  · subst hne
    simp
  · have hml : matchLit (".sys_id".data) (".result[".data) = none := rfl
    simp [hne, drop_append_len, hml]

/-- A scanner pass is the identity on input containing no occurrence of
the matcher's start character. -/
theorem subPassF_no_start (m : List Char → Option (Nat × String)) (ch : Char)
    (hm : ∀ (c : Char) (cs : List Char), c ≠ ch → m (c :: cs) = none)
    (ctx : List (String × JVal)) :
    ∀ (fuel : Nat) (cs : List Char), (∀ c ∈ cs, c ≠ ch) →
      subPassF m ctx fuel cs = cs := by
  intro fuel
  induction fuel with
  | zero => intro cs _; rfl
  | succ f ih =>
    intro cs hall
    cases cs with
    | nil => rfl
    | cons c cs' =>
      have hc : c ≠ ch := hall c (by simp)
      simp only [subPassF, hm c cs' hc]
      rw [ih cs' (fun d hd => hall d (by simp [hd]))]

/-- The `$stepN.sys_id` matcher only fires on a dollar sign. -/
theorem matchSysIdTok_no_dollar (c : Char) (cs : List Char) (h : c ≠ '$') :
    matchSysIdTok (c :: cs) = none := by
  unfold matchSysIdTok
  rw [show ("$step".data : List Char) = '$' :: "step".data from rfl]
  rw [matchLit_ne c cs '$' "step".data h]
  rfl

/-- The `$stepN.result[i].sys_id` matcher only fires on a dollar sign. -/
theorem matchResultTok_no_dollar (c : Char) (cs : List Char) (h : c ≠ '$') :
    matchResultTok (c :: cs) = none := by
  unfold matchResultTok
  rw [show ("$step".data : List Char) = '$' :: "step".data from rfl]
  rw [matchLit_ne c cs '$' "step".data h]
  rfl

/-- The `<TOKEN>` matcher only fires on an opening angle bracket. -/
theorem matchAliasTok_no_lt (c : Char) (cs : List Char) (h : c ≠ '<') :
    matchAliasTok (c :: cs) = none := by
  unfold matchAliasTok
  rw [show ("<".data : List Char) = '<' :: [] from rfl]
  rw [matchLit_ne c cs '<' [] h]
  rfl

/-- A scanner pass on input matched whole replaces it (or leaves the
original text) according to the context lookup. -/
theorem subPass_full (m : List Char → Option (Nat × String))
    (ctx : List (String × JVal)) (c : Char) (cs : List Char) (key : String)
    (hm : m (c :: cs) = some ((c :: cs).length, key)) :
    subPass m ctx (c :: cs) =
      (match dget ctx key with
       | some v => (pyStr v).data
       | none => c :: cs) := by
  unfold subPass
  simp only [subPassF, hm]
  have hlen : 0 < (c :: cs).length := by simp
  rw [if_pos hlen]
  have hdrop : (c :: cs).drop (c :: cs).length = [] := by simp
  rw [hdrop]
  have htake : (c :: cs).take (c :: cs).length = c :: cs := by simp
  cases dget ctx key with
  | none =>
    simp only [htake]
    have : subPassF m ctx cs.length [] = [] := by cases cs.length <;> rfl
    rw [this, List.append_nil]
  | some v =>
    simp only []
    have : subPassF m ctx cs.length [] = [] := by cases cs.length <;> rfl
    rw [this, List.append_nil]

/-- Characters of a `$stepN.sys_id` token other than the leading dollar
sign are never a dollar sign. -/
theorem sysid_token_tail_no_dollar (ds : String)
    (hdig : ∀ c ∈ ds.data, c.isDigit = true) :
    ∀ c ∈ ("step".data ++ (ds.data ++ ".sys_id".data)), c ≠ '$' := by
  intro c hc
  rcases List.mem_append.mp hc with h | h
  · fin_cases h <;> decide
  · rcases List.mem_append.mp h with h2 | h2
    · intro hceq
      subst hceq
      have := hdig '$' h2
      exact absurd this (by decide)
    · fin_cases h2 <;> decide

/-- Characters of a `$stepN.sys_id` token are never an opening angle
bracket. -/
theorem sysid_token_no_lt (ds : String)
    (hdig : ∀ c ∈ ds.data, c.isDigit = true) :
    ∀ c ∈ ('$' :: ("step".data ++ (ds.data ++ ".sys_id".data))), c ≠ '<' := by
  intro c hc
  rcases List.mem_cons.mp hc with h | h
  · subst h; decide
  · rcases List.mem_append.mp h with h1 | h1
    · fin_cases h1 <;> decide
    · rcases List.mem_append.mp h1 with h2 | h2
      · intro hceq
        subst hceq
        have := hdig '<' h2
        exact absurd this (by decide)
      · fin_cases h2 <;> decide

/-- The character list of a `$stepN.sys_id` token. -/
theorem sysid_token_data (ds : String) :
    ("$step" ++ ds ++ ".sys_id").data =
      '$' :: ("step".data ++ (ds.data ++ ".sys_id".data)) := by
  rw [String.data_append, String.data_append]
  rfl

/-- One scanner step over an unmatched head character. -/
theorem subPassF_step_none (m : List Char → Option (Nat × String))
    (ctx : List (String × JVal)) (f : Nat) (c : Char) (cs : List Char)
    (h : m (c :: cs) = none) :
    subPassF m ctx (f + 1) (c :: cs) = c :: subPassF m ctx f cs := by
  conv_lhs => rw [subPassF]
  rw [h]

/-- Substituting a whole `$stepN.sys_id` token bound in the context to a
token-free string value yields that value. -/
theorem subst_sysid_found (ds : String) (ctx : List (String × JVal)) (v : String)
    (hne : ds ≠ "") (hdig : ∀ c ∈ ds.data, c.isDigit = true)
    (hv : dget ctx ("step" ++ ds ++ ".sys_id") = some (.str v))
    (hv1 : ∀ c ∈ v.data, c ≠ '$') (hv2 : ∀ c ∈ v.data, c ≠ '<') :
    substStr ("$step" ++ ds ++ ".sys_id") ctx = v := by
  have hne' : ds.data ≠ [] := by
    intro h
    apply hne
    have : String.mk ds.data = String.mk [] := by rw [h]
    exact this
  have heval := matchSysIdTok_eval ds.data hne' hdig
  have hlen : 5 + ds.data.length + 7 =
      ("$step".data ++ ds.data ++ ".sys_id".data).length := by
    simp [List.length_append]
    omega
  have hm : matchSysIdTok ('$' :: ("step".data ++ (ds.data ++ ".sys_id".data))) =
      some (('$' :: ("step".data ++ (ds.data ++ ".sys_id".data))).length,
            "step" ++ ds ++ ".sys_id") := by
    rw [show '$' :: ("step".data ++ (ds.data ++ ".sys_id".data)) =
      "$step".data ++ ds.data ++ ".sys_id".data by simp]
    rw [heval, hlen]
  unfold substStr
  rw [sysid_token_data]
  rw [subPass_full matchSysIdTok ctx '$' _ ("step" ++ ds ++ ".sys_id") hm]
  rw [hv]
  simp only [pyStr]
  unfold subPass
  rw [subPassF_no_start matchResultTok '$' matchResultTok_no_dollar ctx _ _ hv1]
  rw [subPassF_no_start matchAliasTok '<' matchAliasTok_no_lt ctx _ _ hv2]

/-- Substituting a whole `$stepN.sys_id` token with no matching context
entry leaves the original token text. -/
theorem subst_sysid_missing (ds : String) (ctx : List (String × JVal))
    (hne : ds ≠ "") (hdig : ∀ c ∈ ds.data, c.isDigit = true)
    (hmiss : dget ctx ("step" ++ ds ++ ".sys_id") = none) :
    substStr ("$step" ++ ds ++ ".sys_id") ctx = "$step" ++ ds ++ ".sys_id" := by
  have hne' : ds.data ≠ [] := by
    intro h
    apply hne
    have : String.mk ds.data = String.mk [] := by rw [h]
    exact this
  have heval := matchSysIdTok_eval ds.data hne' hdig
  have hlen : 5 + ds.data.length + 7 =
      ("$step".data ++ ds.data ++ ".sys_id".data).length := by
    simp [List.length_append]
    omega
  have hm : matchSysIdTok ('$' :: ("step".data ++ (ds.data ++ ".sys_id".data))) =
      some (('$' :: ("step".data ++ (ds.data ++ ".sys_id".data))).length,
            "step" ++ ds ++ ".sys_id") := by
    rw [show '$' :: ("step".data ++ (ds.data ++ ".sys_id".data)) =
      "$step".data ++ ds.data ++ ".sys_id".data by simp]
    rw [heval, hlen]
  have hres : matchResultTok ('$' :: ("step".data ++ (ds.data ++ ".sys_id".data))) = none := by
    rw [show '$' :: ("step".data ++ (ds.data ++ ".sys_id".data)) =
      "$step".data ++ ds.data ++ ".sys_id".data by simp]
    exact matchResultTok_none ds.data hdig
  unfold substStr
  rw [sysid_token_data]
  rw [subPass_full matchSysIdTok ctx '$' _ ("step" ++ ds ++ ".sys_id") hm]
  rw [hmiss]
  simp only []
  have hpass2 : subPass matchResultTok ctx
      ('$' :: ("step".data ++ (ds.data ++ ".sys_id".data))) =
      '$' :: ("step".data ++ (ds.data ++ ".sys_id".data)) := by
    unfold subPass
    rw [show ('$' :: ("step".data ++ (ds.data ++ ".sys_id".data))).length =
      ("step".data ++ (ds.data ++ ".sys_id".data)).length + 1 from rfl]
    rw [subPassF_step_none matchResultTok ctx
      ("step".data ++ (ds.data ++ ".sys_id".data)).length '$'
      ("step".data ++ (ds.data ++ ".sys_id".data)) hres]
    rw [subPassF_no_start matchResultTok '$' matchResultTok_no_dollar ctx _ _
      (sysid_token_tail_no_dollar ds hdig)]
  rw [hpass2]
  unfold subPass
  rw [subPassF_no_start matchAliasTok '<' matchAliasTok_no_lt ctx _ _
    (sysid_token_no_lt ds hdig)]
  rw [← sysid_token_data]

/-- Taking the length of an appended front segment. -/
theorem take_append_len (l : List Char) : ∀ r : List Char, (l ++ r).take l.length = l := by
  induction l with
  | nil => intro r; rfl
  | cons c l' ih => intro r; simp [ih r]

/-- `matchLit` steps over a shared head character. -/
theorem matchLit_cons_eq (c : Char) (cs ps : List Char) :
    matchLit (c :: cs) (c :: ps) = matchLit cs ps := by
  simp [matchLit]

/-- `takeWhile` stops at a head character failing the test. -/
theorem takeWhile_not_head (p : Char → Bool) (c : Char) (rest : List Char)
    (h : p c = false) : ((c :: rest).takeWhile p) = [] := by
  simp [List.takeWhile_cons, h]

/-- A scanner pass walks over a run of characters that can start no match,
emitting it unchanged and continuing. -/
theorem subPassF_skip_clean (m : List Char → Option (Nat × String)) (ch : Char)
    (hm : ∀ (c : Char) (cs : List Char), c ≠ ch → m (c :: cs) = none)
    (ctx : List (String × JVal)) :
    ∀ (pre : List Char) (f : Nat) (rest : List Char), (∀ c ∈ pre, c ≠ ch) →
      subPassF m ctx (pre.length + f) (pre ++ rest) = pre ++ subPassF m ctx f rest := by
  intro pre
  induction pre with
  | nil => intro f rest _; simp
  | cons c pre' ih =>
    intro f rest hall
    have hc : c ≠ ch := hall c (by simp)
    rw [show (c :: pre').length + f = (pre'.length + f) + 1 by rw [List.length_cons]; omega]
    rw [List.cons_append]
    rw [subPassF_step_none m ctx (pre'.length + f) c (pre' ++ rest) (hm c _ hc)]
    rw [ih f rest (fun d hd => hall d (by simp [hd])), List.cons_append]

/-- A whole scanner pass over match-free input is the identity. -/
theorem subPass_no_start (m : List Char → Option (Nat × String)) (ch : Char)
    (hm : ∀ (c : Char) (cs : List Char), c ≠ ch → m (c :: cs) = none)
    (ctx : List (String × JVal)) (cs : List Char) (h : ∀ c ∈ cs, c ≠ ch) :
    subPass m ctx cs = cs :=
  subPassF_no_start m ch hm ctx cs.length cs h

/-- The central embedded-token pass lemma: a token between two clean runs
is replaced or kept according to the context lookup on its captured
key. -/
theorem subPass_embedded (m : List Char → Option (Nat × String)) (ch : Char)
    (hm : ∀ (c : Char) (cs : List Char), c ≠ ch → m (c :: cs) = none)
    (ctx : List (String × JVal)) (pre tok suf : List Char) (key : String)
    (hpre : ∀ c ∈ pre, c ≠ ch) (hsuf : ∀ c ∈ suf, c ≠ ch)
    (htok : m (tok ++ suf) = some (tok.length, key)) (hlen : 0 < tok.length) :
    subPass m ctx (pre ++ (tok ++ suf)) =
      pre ++ ((match dget ctx key with
               | some v => (pyStr v).data
               | none => tok) ++ suf) := by
  unfold subPass
  rw [show (pre ++ (tok ++ suf)).length = pre.length + (tok ++ suf).length by simp]
  rw [subPassF_skip_clean m ch hm ctx pre ((tok ++ suf).length) (tok ++ suf) hpre]
  have hmain : subPassF m ctx (tok ++ suf).length (tok ++ suf) =
      (match dget ctx key with
       | some v => (pyStr v).data
       | none => tok) ++ suf := by
    cases tok with
    | nil => exact absurd hlen (by simp)
    | cons t tok' =>
      rw [List.cons_append] at htok
      rw [List.cons_append, List.length_cons]
      simp only [subPassF, htok]
      rw [if_pos (show 0 < (t :: tok').length by simp)]
      have hdr : (t :: (tok' ++ suf)).drop (t :: tok').length = suf := by
        rw [← List.cons_append]
        exact drop_append_len (t :: tok') suf
      have htk : (t :: (tok' ++ suf)).take (t :: tok').length = t :: tok' := by
        rw [← List.cons_append]
        exact take_append_len (t :: tok') suf
      rw [hdr]
      rw [subPassF_no_start m ch hm ctx ((tok' ++ suf).length) suf hsuf]
      cases dget ctx key with
      | some v => rfl
      | none => rw [htk]
  rw [hmain]

/-- Embedded token with a bound key: replaced by the value's string
form. -/
theorem subPass_embedded_found (m : List Char → Option (Nat × String)) (ch : Char)
    (hm : ∀ (c : Char) (cs : List Char), c ≠ ch → m (c :: cs) = none)
    (ctx : List (String × JVal)) (pre tok suf : List Char) (key : String) (v : JVal)
    (hpre : ∀ c ∈ pre, c ≠ ch) (hsuf : ∀ c ∈ suf, c ≠ ch)
    (htok : m (tok ++ suf) = some (tok.length, key)) (hlen : 0 < tok.length)
    (hv : dget ctx key = some v) :
    subPass m ctx (pre ++ (tok ++ suf)) = pre ++ ((pyStr v).data ++ suf) := by
  rw [subPass_embedded m ch hm ctx pre tok suf key hpre hsuf htok hlen, hv]

/-- Embedded token with an unbound key: kept as its literal text. -/
theorem subPass_embedded_kept (m : List Char → Option (Nat × String)) (ch : Char)
    (hm : ∀ (c : Char) (cs : List Char), c ≠ ch → m (c :: cs) = none)
    (ctx : List (String × JVal)) (pre tok suf : List Char) (key : String)
    (hpre : ∀ c ∈ pre, c ≠ ch) (hsuf : ∀ c ∈ suf, c ≠ ch)
    (htok : m (tok ++ suf) = some (tok.length, key)) (hlen : 0 < tok.length)
    (hv : dget ctx key = none) :
    subPass m ctx (pre ++ (tok ++ suf)) = pre ++ (tok ++ suf) := by
  rw [subPass_embedded m ch hm ctx pre tok suf key hpre hsuf htok hlen, hv]

/-- A pass whose matcher fails at the single candidate position (and can
start nowhere else) is the identity. -/
theorem subPass_id_embedded (m : List Char → Option (Nat × String)) (ch : Char)
    (hm : ∀ (c : Char) (cs : List Char), c ≠ ch → m (c :: cs) = none)
    (ctx : List (String × JVal)) (pre tokTail suf : List Char)
    (hpre : ∀ c ∈ pre, c ≠ ch) (htail : ∀ c ∈ tokTail, c ≠ ch)
    (hsuf : ∀ c ∈ suf, c ≠ ch)
    (hfail : m ((ch :: tokTail) ++ suf) = none) :
    subPass m ctx (pre ++ ((ch :: tokTail) ++ suf)) = pre ++ ((ch :: tokTail) ++ suf) := by
  unfold subPass
  rw [show (pre ++ ((ch :: tokTail) ++ suf)).length
      = pre.length + ((ch :: tokTail) ++ suf).length by simp]
  rw [subPassF_skip_clean m ch hm ctx pre (((ch :: tokTail) ++ suf).length)
    ((ch :: tokTail) ++ suf) hpre]
  rw [List.cons_append] at hfail
  rw [List.cons_append, List.length_cons]
  rw [subPassF_step_none m ctx ((tokTail ++ suf).length) ch (tokTail ++ suf) hfail]
  rw [subPassF_no_start m ch hm ctx ((tokTail ++ suf).length) (tokTail ++ suf)
    (fun c hc => (List.mem_append.mp hc).elim (htail c) (hsuf c))]

/-- The `$stepN.sys_id` matcher at a token followed by arbitrary text. -/
theorem matchSysIdTok_eval_emb (ds rest : List Char) (hne : ds ≠ [])
    (hdig : ∀ c ∈ ds, c.isDigit = true) :
    matchSysIdTok (("$step".data ++ ds ++ ".sys_id".data) ++ rest) =
      some (5 + ds.length + 7, "step" ++ String.mk ds ++ ".sys_id") := by
  unfold matchSysIdTok
  rw [show ("$step".data ++ ds ++ ".sys_id".data) ++ rest =
      "$step".data ++ (ds ++ (".sys_id".data ++ rest)) by simp]
  rw [matchLit_append]
  simp only [Option.bind_eq_bind, Option.some_bind]
  rw [takeWhile_append_all Char.isDigit ds (".sys_id".data ++ rest) hdig]
  rw [show ((".sys_id".data ++ rest).takeWhile Char.isDigit) = [] by
    rw [show (".sys_id".data : List Char) = '.' :: "sys_id".data from rfl,
      List.cons_append]
    exact takeWhile_not_head Char.isDigit '.' _ (by decide)]
  rw [List.append_nil]
  rw [show ds.isEmpty = false by cases ds with
    | nil => exact absurd rfl hne
    | cons a l => rfl]
  simp only [Bool.false_eq_true, if_false, Option.some_bind]
  rw [drop_append_len, matchLit_append (".sys_id".data) rest]
  simp only [Option.some_bind]

/-- The `$stepN.result[i].sys_id` matcher fails on a `$stepN.sys_id` token
followed by arbitrary text. -/
theorem matchResultTok_none_emb (ds rest : List Char)
    (hdig : ∀ c ∈ ds, c.isDigit = true) :
    matchResultTok (("$step".data ++ ds ++ ".sys_id".data) ++ rest) = none := by
  unfold matchResultTok
  rw [show ("$step".data ++ ds ++ ".sys_id".data) ++ rest =
      "$step".data ++ (ds ++ (".sys_id".data ++ rest)) by simp]
  rw [matchLit_append]
  simp only [Option.bind_eq_bind, Option.some_bind]
  rw [takeWhile_append_all Char.isDigit ds (".sys_id".data ++ rest) hdig]
  rw [show ((".sys_id".data ++ rest).takeWhile Char.isDigit) = [] by
    rw [show (".sys_id".data : List Char) = '.' :: "sys_id".data from rfl,
      List.cons_append]
    exact takeWhile_not_head Char.isDigit '.' _ (by decide)]
  rw [List.append_nil]
  by_cases hne : ds = []
  · subst hne
    simp
  · have hml : matchLit (".sys_id".data ++ rest) (".result[".data) = none := by
      rw [show (".sys_id".data : List Char) = '.' :: 's' :: "ys_id".data from rfl,
        show (".result[".data : List Char) = '.' :: 'r' :: "esult[".data from rfl]
      simp only [List.cons_append]
      rw [matchLit_cons_eq]
      exact matchLit_ne 's' _ 'r' _ (by decide)
    rw [show ds.isEmpty = false by cases ds with
      | nil => exact absurd rfl hne
      | cons a l => rfl]
    simp only [Bool.false_eq_true, if_false, Option.some_bind]
    rw [drop_append_len, hml]
    rfl

/-- The `$stepN.sys_id` matcher fails on a `$stepN.result[i].sys_id` token
followed by arbitrary text. -/
theorem matchSysIdTok_none_result (ds es rest : List Char)
    (hdig : ∀ c ∈ ds, c.isDigit = true) :
    matchSysIdTok
      (("$step".data ++ ds ++ ".result[".data ++ es ++ "].sys_id".data) ++ rest) = none := by
  unfold matchSysIdTok
  rw [show ("$step".data ++ ds ++ ".result[".data ++ es ++ "].sys_id".data) ++ rest =
      "$step".data ++ (ds ++ (".result[".data ++ (es ++ ("].sys_id".data ++ rest)))) by simp]
  rw [matchLit_append]
  simp only [Option.bind_eq_bind, Option.some_bind]
  rw [takeWhile_append_all Char.isDigit ds
    (".result[".data ++ (es ++ ("].sys_id".data ++ rest))) hdig]
  rw [show ((".result[".data ++ (es ++ ("].sys_id".data ++ rest))).takeWhile
      Char.isDigit) = [] by
    rw [show (".result[".data : List Char) = '.' :: "result[".data from rfl,
      List.cons_append]
    exact takeWhile_not_head Char.isDigit '.' _ (by decide)]
  rw [List.append_nil]
  by_cases hne : ds = []
  · subst hne
    simp
  · have hml : matchLit (".result[".data ++ (es ++ ("].sys_id".data ++ rest)))
        (".sys_id".data) = none := by
      rw [show (".result[".data : List Char) = '.' :: 'r' :: "esult[".data from rfl,
        show (".sys_id".data : List Char) = '.' :: 's' :: "ys_id".data from rfl]
      simp only [List.cons_append]
      rw [matchLit_cons_eq]
      exact matchLit_ne 'r' _ 's' _ (by decide)
    rw [show ds.isEmpty = false by cases ds with
      | nil => exact absurd rfl hne
      | cons a l => rfl]
    simp only [Bool.false_eq_true, if_false]
    rw [drop_append_len, hml]
    rfl

/-- The `$stepN.result[i].sys_id` matcher at a token followed by arbitrary
text. -/
theorem matchResultTok_eval_emb (ds es rest : List Char) (hdne : ds ≠ [])
    (hene : es ≠ []) (hdig : ∀ c ∈ ds, c.isDigit = true)
    (hedig : ∀ c ∈ es, c.isDigit = true) :
    matchResultTok
        (("$step".data ++ ds ++ ".result[".data ++ es ++ "].sys_id".data) ++ rest) =
      some (5 + ds.length + 8 + es.length + 8,
            "step" ++ String.mk ds ++ ".result[" ++ String.mk es ++ "].sys_id") := by
  unfold matchResultTok
  rw [show ("$step".data ++ ds ++ ".result[".data ++ es ++ "].sys_id".data) ++ rest =
      "$step".data ++ (ds ++ (".result[".data ++ (es ++ ("].sys_id".data ++ rest)))) by simp]
  rw [matchLit_append]
  simp only [Option.bind_eq_bind, Option.some_bind]
  rw [takeWhile_append_all Char.isDigit ds
    (".result[".data ++ (es ++ ("].sys_id".data ++ rest))) hdig]
  rw [show ((".result[".data ++ (es ++ ("].sys_id".data ++ rest))).takeWhile
      Char.isDigit) = [] by
    rw [show (".result[".data : List Char) = '.' :: "result[".data from rfl,
      List.cons_append]
    exact takeWhile_not_head Char.isDigit '.' _ (by decide)]
  rw [List.append_nil]
  rw [show ds.isEmpty = false by cases ds with
    | nil => exact absurd rfl hdne
    | cons a l => rfl]
  simp only [Bool.false_eq_true, if_false, Option.some_bind]
  rw [drop_append_len, matchLit_append (".result[".data) (es ++ ("].sys_id".data ++ rest))]
  simp only [Option.some_bind]
  rw [takeWhile_append_all Char.isDigit es ("].sys_id".data ++ rest) hedig]
  rw [show (("].sys_id".data ++ rest).takeWhile Char.isDigit) = [] by
    rw [show ("].sys_id".data : List Char) = ']' :: ".sys_id".data from rfl,
      List.cons_append]
    exact takeWhile_not_head Char.isDigit ']' _ (by decide)]
  rw [List.append_nil]
  rw [show es.isEmpty = false by cases es with
    | nil => exact absurd rfl hene
    | cons a l => rfl]
  simp only [Bool.false_eq_true, if_false, Option.some_bind]
  rw [drop_append_len, matchLit_append ("].sys_id".data) rest]
  simp only [Option.some_bind]

/-- The `<TOKEN>` matcher at a token followed by arbitrary text. -/
theorem matchAliasTok_eval_emb (ts rest : List Char) (hne : ts ≠ [])
    (hts : ∀ c ∈ ts, isTokChar c = true) :
    matchAliasTok (("<".data ++ ts ++ ">".data) ++ rest) =
      some (1 + ts.length + 1, String.mk ts) := by
  unfold matchAliasTok
  rw [show ("<".data ++ ts ++ ">".data) ++ rest =
      "<".data ++ (ts ++ (">".data ++ rest)) by simp]
  rw [matchLit_append]
  simp only [Option.bind_eq_bind, Option.some_bind]
  rw [takeWhile_append_all isTokChar ts (">".data ++ rest) hts]
  rw [show ((">".data ++ rest).takeWhile isTokChar) = [] by
    rw [show (">".data : List Char) = '>' :: ([] : List Char) from rfl, List.cons_append]
    exact takeWhile_not_head isTokChar '>' _ (by decide)]
  rw [List.append_nil]
  rw [show ts.isEmpty = false by cases ts with
    | nil => exact absurd rfl hne
    | cons a l => rfl]
  simp only [Bool.false_eq_true, if_false, Option.some_bind]
  rw [drop_append_len, matchLit_append (">".data) rest]
  simp only [Option.some_bind]

/-- Cons form of the `$stepN.sys_id` token character list. -/
theorem ts_shape (ds : List Char) :
    "$step".data ++ ds ++ ".sys_id".data =
      '$' :: ("step".data ++ (ds ++ ".sys_id".data)) := by
  rw [show ("$step".data : List Char) = '$' :: "step".data from rfl]
  simp

/-- Cons form of the `$stepN.result[i].sys_id` token character list. -/
theorem tr_shape (ds es : List Char) :
    "$step".data ++ ds ++ ".result[".data ++ es ++ "].sys_id".data =
      '$' :: ("step".data ++ (ds ++ (".result[".data ++ (es ++ "].sys_id".data)))) := by
  rw [show ("$step".data : List Char) = '$' :: "step".data from rfl]
  simp

/-- Cons form of the `<TOKEN>` token character list. -/
theorem ta_shape (ts : List Char) :
    "<".data ++ ts ++ ">".data = '<' :: (ts ++ ">".data) := by
  rw [show ("<".data : List Char) = '<' :: ([] : List Char) from rfl]
  simp

/-- Tail characters of a `$stepN.sys_id` token are clean of `$` and
`<`. -/
theorem ts_tail_clean (ds : List Char) (hdig : ∀ c ∈ ds, c.isDigit = true) :
    ∀ c ∈ ("step".data ++ (ds ++ ".sys_id".data)), c ≠ '$' ∧ c ≠ '<' := by
  intro c hc
  rcases List.mem_append.mp hc with h | h
  · fin_cases h <;> decide
  · rcases List.mem_append.mp h with h2 | h2
    · refine ⟨?_, ?_⟩ <;> (intro hceq; subst hceq; exact absurd (hdig _ h2) (by decide))
    · fin_cases h2 <;> decide

/-- Tail characters of a `$stepN.result[i].sys_id` token are clean of `$`
and `<`. -/
theorem tr_tail_clean (ds es : List Char) (hdig : ∀ c ∈ ds, c.isDigit = true)
    (hedig : ∀ c ∈ es, c.isDigit = true) :
    ∀ c ∈ ("step".data ++ (ds ++ (".result[".data ++ (es ++ "].sys_id".data)))),
      c ≠ '$' ∧ c ≠ '<' := by
  intro c hc
  rcases List.mem_append.mp hc with h | h
  · fin_cases h <;> decide
  · rcases List.mem_append.mp h with h2 | h2
    · refine ⟨?_, ?_⟩ <;> (intro hceq; subst hceq; exact absurd (hdig _ h2) (by decide))
    · rcases List.mem_append.mp h2 with h3 | h3
      · fin_cases h3 <;> decide
      · rcases List.mem_append.mp h3 with h4 | h4
        · refine ⟨?_, ?_⟩ <;> (intro hceq; subst hceq; exact absurd (hedig _ h4) (by decide))
        · fin_cases h4 <;> decide

/-- No character of a `<TOKEN>` token is a dollar sign. -/
theorem ta_no_dollar (ts : List Char) (hts : ∀ c ∈ ts, isTokChar c = true) :
    ∀ c ∈ ('<' :: (ts ++ ">".data)), c ≠ '$' := by
  intro c hc
  rcases List.mem_cons.mp hc with h | h
  · subst h; decide
  · rcases List.mem_append.mp h with h2 | h2
    · intro hceq; subst hceq; exact absurd (hts _ h2) (by decide)
    · fin_cases h2
      decide

/-- The data of a nonempty string is nonempty. -/
theorem str_data_ne (s : String) (h : s ≠ "") : s.data ≠ [] := by
  intro hd
  apply h
  have : String.mk s.data = String.mk [] := by rw [hd]
  exact this

/-- A `$stepN.sys_id` token embedded between token-free runs, bound in the
context to a non-`None` value: replaced by the entry's string form. -/
theorem subst_sysid_found_emb (pre suf ds : String) (ctx : List (String × JVal))
    (v : JVal) (hds : DigitStr ds) (hpre : TokenFree pre) (hsuf : TokenFree suf)
    (hv : dget ctx ("step" ++ ds ++ ".sys_id") = some v)
    (_hnv : isNull v = false) (hvf : TokenFree (pyStr v)) :
    substStr (pre ++ "$step" ++ ds ++ ".sys_id" ++ suf) ctx = pre ++ pyStr v ++ suf := by
  obtain ⟨hne, hdig⟩ := hds
  have hne' : ds.data ≠ [] := str_data_ne ds hne
  have hdata : (pre ++ "$step" ++ ds ++ ".sys_id" ++ suf).data =
      pre.data ++ (("$step".data ++ ds.data ++ ".sys_id".data) ++ suf.data) := by
    simp [String.data_append]
  have hlen : 5 + ds.data.length + 7 =
      ("$step".data ++ ds.data ++ ".sys_id".data).length := by
    simp [List.length_append]
    omega
  have htok : matchSysIdTok (("$step".data ++ ds.data ++ ".sys_id".data) ++ suf.data) =
      some (("$step".data ++ ds.data ++ ".sys_id".data).length,
            "step" ++ ds ++ ".sys_id") := by
    rw [matchSysIdTok_eval_emb ds.data suf.data hne' hdig, hlen]
  have hpos : 0 < ("$step".data ++ ds.data ++ ".sys_id".data).length := by
    rw [← hlen]
    omega
  unfold substStr
  rw [hdata]
  rw [subPass_embedded_found matchSysIdTok '$' matchSysIdTok_no_dollar ctx
    pre.data _ suf.data ("step" ++ ds ++ ".sys_id") v
    (fun c hc => (hpre c hc).1) (fun c hc => (hsuf c hc).1) htok hpos hv]
  rw [subPass_no_start matchResultTok '$' matchResultTok_no_dollar ctx _
    (fun c hc => by
      rcases List.mem_append.mp hc with h | h
      · exact (hpre c h).1
      · rcases List.mem_append.mp h with h2 | h2
        · exact (hvf c h2).1
        · exact (hsuf c h2).1)]
  rw [subPass_no_start matchAliasTok '<' matchAliasTok_no_lt ctx _
    (fun c hc => by
      rcases List.mem_append.mp hc with h | h
      · exact (hpre c h).2
      · rcases List.mem_append.mp h with h2 | h2
        · exact (hvf c h2).2
        · exact (hsuf c h2).2)]
  apply String.ext
  simp [String.data_append]

/-- A `$stepN.sys_id` token embedded between token-free runs, unbound in
the context: kept as its literal text. -/
theorem subst_sysid_missing_emb (pre suf ds : String) (ctx : List (String × JVal))
    (hds : DigitStr ds) (hpre : TokenFree pre) (hsuf : TokenFree suf)
    (hv : dget ctx ("step" ++ ds ++ ".sys_id") = none) :
    substStr (pre ++ "$step" ++ ds ++ ".sys_id" ++ suf) ctx =
      pre ++ "$step" ++ ds ++ ".sys_id" ++ suf := by
  obtain ⟨hne, hdig⟩ := hds
  have hne' : ds.data ≠ [] := str_data_ne ds hne
  have hdata : (pre ++ "$step" ++ ds ++ ".sys_id" ++ suf).data =
      pre.data ++ (("$step".data ++ ds.data ++ ".sys_id".data) ++ suf.data) := by
    simp [String.data_append]
  have hlen : 5 + ds.data.length + 7 =
      ("$step".data ++ ds.data ++ ".sys_id".data).length := by
    simp [List.length_append]
    omega
  have htok : matchSysIdTok (("$step".data ++ ds.data ++ ".sys_id".data) ++ suf.data) =
      some (("$step".data ++ ds.data ++ ".sys_id".data).length,
            "step" ++ ds ++ ".sys_id") := by
    rw [matchSysIdTok_eval_emb ds.data suf.data hne' hdig, hlen]
  have hpos : 0 < ("$step".data ++ ds.data ++ ".sys_id".data).length := by
    rw [← hlen]
    omega
  have hfail2 : matchResultTok
      (('$' :: ("step".data ++ (ds.data ++ ".sys_id".data))) ++ suf.data) = none := by
    rw [← ts_shape]
    exact matchResultTok_none_emb ds.data suf.data hdig
  unfold substStr
  rw [hdata]
  rw [subPass_embedded_kept matchSysIdTok '$' matchSysIdTok_no_dollar ctx
    pre.data _ suf.data ("step" ++ ds ++ ".sys_id")
    (fun c hc => (hpre c hc).1) (fun c hc => (hsuf c hc).1) htok hpos hv]
  rw [ts_shape]
  rw [subPass_id_embedded matchResultTok '$' matchResultTok_no_dollar ctx
    pre.data ("step".data ++ (ds.data ++ ".sys_id".data)) suf.data
    (fun c hc => (hpre c hc).1)
    (fun c hc => (ts_tail_clean ds.data hdig c hc).1)
    (fun c hc => (hsuf c hc).1) hfail2]
  rw [subPass_no_start matchAliasTok '<' matchAliasTok_no_lt ctx _
    (fun c hc => by
      rcases List.mem_append.mp hc with h | h
      · exact (hpre c h).2
      · rcases List.mem_append.mp h with h2 | h2
        · rcases List.mem_cons.mp h2 with h3 | h3
          · subst h3; decide
          · exact (ts_tail_clean ds.data hdig c h3).2
        · exact (hsuf c h2).2)]
  rw [← ts_shape, ← hdata]

/-- A `$stepN.result[i].sys_id` token embedded between token-free runs,
bound in the context to a non-`None` value: replaced by the entry's string
form. -/
theorem subst_result_found_emb (pre suf ds es : String) (ctx : List (String × JVal))
    (v : JVal) (hds : DigitStr ds) (hes : DigitStr es)
    (hpre : TokenFree pre) (hsuf : TokenFree suf)
    (hv : dget ctx ("step" ++ ds ++ ".result[" ++ es ++ "].sys_id") = some v)
    (_hnv : isNull v = false) (hvf : TokenFree (pyStr v)) :
    substStr (pre ++ "$step" ++ ds ++ ".result[" ++ es ++ "].sys_id" ++ suf) ctx =
      pre ++ pyStr v ++ suf := by
  obtain ⟨hdne, hdig⟩ := hds
  obtain ⟨hene, hedig⟩ := hes
  have hdne' : ds.data ≠ [] := str_data_ne ds hdne
  have hene' : es.data ≠ [] := str_data_ne es hene
  have hdata : (pre ++ "$step" ++ ds ++ ".result[" ++ es ++ "].sys_id" ++ suf).data =
      pre.data ++ (("$step".data ++ ds.data ++ ".result[".data ++ es.data ++
        "].sys_id".data) ++ suf.data) := by
    simp [String.data_append]
  have hlen : 5 + ds.data.length + 8 + es.data.length + 8 =
      ("$step".data ++ ds.data ++ ".result[".data ++ es.data ++
        "].sys_id".data).length := by
    simp [List.length_append]
    omega
  have htok : matchResultTok (("$step".data ++ ds.data ++ ".result[".data ++ es.data ++
        "].sys_id".data) ++ suf.data) =
      some (("$step".data ++ ds.data ++ ".result[".data ++ es.data ++
        "].sys_id".data).length, "step" ++ ds ++ ".result[" ++ es ++ "].sys_id") := by
    rw [matchResultTok_eval_emb ds.data es.data suf.data hdne' hene' hdig hedig, hlen]
  have hpos : 0 < ("$step".data ++ ds.data ++ ".result[".data ++ es.data ++
      "].sys_id".data).length := by
    rw [← hlen]
    omega
  have hfail1 : matchSysIdTok
      (('$' :: ("step".data ++ (ds.data ++ (".result[".data ++ (es.data ++
        "].sys_id".data))))) ++ suf.data) = none := by
    rw [← tr_shape]
    exact matchSysIdTok_none_result ds.data es.data suf.data hdig
  unfold substStr
  rw [hdata, tr_shape]
  rw [subPass_id_embedded matchSysIdTok '$' matchSysIdTok_no_dollar ctx
    pre.data ("step".data ++ (ds.data ++ (".result[".data ++ (es.data ++
      "].sys_id".data)))) suf.data
    (fun c hc => (hpre c hc).1)
    (fun c hc => (tr_tail_clean ds.data es.data hdig hedig c hc).1)
    (fun c hc => (hsuf c hc).1) hfail1]
  rw [← tr_shape]
  rw [subPass_embedded_found matchResultTok '$' matchResultTok_no_dollar ctx
    pre.data _ suf.data ("step" ++ ds ++ ".result[" ++ es ++ "].sys_id") v
    (fun c hc => (hpre c hc).1) (fun c hc => (hsuf c hc).1) htok hpos hv]
  rw [subPass_no_start matchAliasTok '<' matchAliasTok_no_lt ctx _
    (fun c hc => by
      rcases List.mem_append.mp hc with h | h
      · exact (hpre c h).2
      · rcases List.mem_append.mp h with h2 | h2
        · exact (hvf c h2).2
        · exact (hsuf c h2).2)]
  apply String.ext
  simp [String.data_append]

/-- A `$stepN.result[i].sys_id` token embedded between token-free runs,
unbound in the context: kept as its literal text. -/
theorem subst_result_missing_emb (pre suf ds es : String) (ctx : List (String × JVal))
    (hds : DigitStr ds) (hes : DigitStr es)
    (hpre : TokenFree pre) (hsuf : TokenFree suf)
    (hv : dget ctx ("step" ++ ds ++ ".result[" ++ es ++ "].sys_id") = none) :
    substStr (pre ++ "$step" ++ ds ++ ".result[" ++ es ++ "].sys_id" ++ suf) ctx =
      pre ++ "$step" ++ ds ++ ".result[" ++ es ++ "].sys_id" ++ suf := by
  obtain ⟨hdne, hdig⟩ := hds
  obtain ⟨hene, hedig⟩ := hes
  have hdne' : ds.data ≠ [] := str_data_ne ds hdne
  have hene' : es.data ≠ [] := str_data_ne es hene
  have hdata : (pre ++ "$step" ++ ds ++ ".result[" ++ es ++ "].sys_id" ++ suf).data =
      pre.data ++ (("$step".data ++ ds.data ++ ".result[".data ++ es.data ++
        "].sys_id".data) ++ suf.data) := by
    simp [String.data_append]
  have hlen : 5 + ds.data.length + 8 + es.data.length + 8 =
      ("$step".data ++ ds.data ++ ".result[".data ++ es.data ++
        "].sys_id".data).length := by
    simp [List.length_append]
    omega
  have htok : matchResultTok (("$step".data ++ ds.data ++ ".result[".data ++ es.data ++
        "].sys_id".data) ++ suf.data) =
      some (("$step".data ++ ds.data ++ ".result[".data ++ es.data ++
        "].sys_id".data).length, "step" ++ ds ++ ".result[" ++ es ++ "].sys_id") := by
    rw [matchResultTok_eval_emb ds.data es.data suf.data hdne' hene' hdig hedig, hlen]
  have hpos : 0 < ("$step".data ++ ds.data ++ ".result[".data ++ es.data ++
      "].sys_id".data).length := by
    rw [← hlen]
    omega
  have hfail1 : matchSysIdTok
      (('$' :: ("step".data ++ (ds.data ++ (".result[".data ++ (es.data ++
        "].sys_id".data))))) ++ suf.data) = none := by
    rw [← tr_shape]
    exact matchSysIdTok_none_result ds.data es.data suf.data hdig
  unfold substStr
  rw [hdata, tr_shape]
  rw [subPass_id_embedded matchSysIdTok '$' matchSysIdTok_no_dollar ctx
    pre.data ("step".data ++ (ds.data ++ (".result[".data ++ (es.data ++
      "].sys_id".data)))) suf.data
    (fun c hc => (hpre c hc).1)
    (fun c hc => (tr_tail_clean ds.data es.data hdig hedig c hc).1)
    (fun c hc => (hsuf c hc).1) hfail1]
  rw [← tr_shape]
  rw [subPass_embedded_kept matchResultTok '$' matchResultTok_no_dollar ctx
    pre.data _ suf.data ("step" ++ ds ++ ".result[" ++ es ++ "].sys_id")
    (fun c hc => (hpre c hc).1) (fun c hc => (hsuf c hc).1) htok hpos hv]
  rw [tr_shape]
  rw [subPass_no_start matchAliasTok '<' matchAliasTok_no_lt ctx _
    (fun c hc => by
      rcases List.mem_append.mp hc with h | h
      · exact (hpre c h).2
      · rcases List.mem_append.mp h with h2 | h2
        · rcases List.mem_cons.mp h2 with h3 | h3
          · subst h3; decide
          · exact (tr_tail_clean ds.data es.data hdig hedig c h3).2
        · exact (hsuf c h2).2)]
  rw [← tr_shape, ← hdata]

/-- A `<TOKEN>` token embedded between token-free runs, bound in the
context to a non-`None` value: replaced by the entry's string form (the
alias pass runs last, so the inserted value is never rescanned). -/
theorem subst_alias_found_emb (pre suf ts : String) (ctx : List (String × JVal))
    (v : JVal) (hts : TokName ts) (hpre : TokenFree pre) (hsuf : TokenFree suf)
    (hv : dget ctx ts = some v) (_hnv : isNull v = false) :
    substStr (pre ++ "<" ++ ts ++ ">" ++ suf) ctx = pre ++ pyStr v ++ suf := by
  obtain ⟨hne, htc⟩ := hts
  have hne' : ts.data ≠ [] := str_data_ne ts hne
  have hdata : (pre ++ "<" ++ ts ++ ">" ++ suf).data =
      pre.data ++ (("<".data ++ ts.data ++ ">".data) ++ suf.data) := by
    simp [String.data_append]
  have hlen : 1 + ts.data.length + 1 = ("<".data ++ ts.data ++ ">".data).length := by
    simp [List.length_append]
    omega
  have htok : matchAliasTok (("<".data ++ ts.data ++ ">".data) ++ suf.data) =
      some (("<".data ++ ts.data ++ ">".data).length, ts) := by
    rw [matchAliasTok_eval_emb ts.data suf.data hne' htc, hlen]
  have hpos : 0 < ("<".data ++ ts.data ++ ">".data).length := by
    rw [← hlen]
    omega
  unfold substStr
  rw [hdata, ta_shape]
  rw [subPass_no_start matchSysIdTok '$' matchSysIdTok_no_dollar ctx _
    (fun c hc => by
      rcases List.mem_append.mp hc with h | h
      · exact (hpre c h).1
      · rcases List.mem_append.mp h with h2 | h2
        · exact ta_no_dollar ts.data htc c h2
        · exact (hsuf c h2).1)]
  rw [subPass_no_start matchResultTok '$' matchResultTok_no_dollar ctx _
    (fun c hc => by
      rcases List.mem_append.mp hc with h | h
      · exact (hpre c h).1
      · rcases List.mem_append.mp h with h2 | h2
        · exact ta_no_dollar ts.data htc c h2
        · exact (hsuf c h2).1)]
  rw [← ta_shape]
  rw [subPass_embedded_found matchAliasTok '<' matchAliasTok_no_lt ctx
    pre.data _ suf.data ts v
    (fun c hc => (hpre c hc).2) (fun c hc => (hsuf c hc).2) htok hpos hv]
  apply String.ext
  simp [String.data_append]

/-- A `<TOKEN>` token embedded between token-free runs, unbound in the
context: kept as its literal text. -/
theorem subst_alias_missing_emb (pre suf ts : String) (ctx : List (String × JVal))
    (hts : TokName ts) (hpre : TokenFree pre) (hsuf : TokenFree suf)
    (hv : dget ctx ts = none) :
    substStr (pre ++ "<" ++ ts ++ ">" ++ suf) ctx = pre ++ "<" ++ ts ++ ">" ++ suf := by
  obtain ⟨hne, htc⟩ := hts
  have hne' : ts.data ≠ [] := str_data_ne ts hne
  have hdata : (pre ++ "<" ++ ts ++ ">" ++ suf).data =
      pre.data ++ (("<".data ++ ts.data ++ ">".data) ++ suf.data) := by
    simp [String.data_append]
  have hlen : 1 + ts.data.length + 1 = ("<".data ++ ts.data ++ ">".data).length := by
    simp [List.length_append]
    omega
  have htok : matchAliasTok (("<".data ++ ts.data ++ ">".data) ++ suf.data) =
      some (("<".data ++ ts.data ++ ">".data).length, ts) := by
    rw [matchAliasTok_eval_emb ts.data suf.data hne' htc, hlen]
  have hpos : 0 < ("<".data ++ ts.data ++ ">".data).length := by
    rw [← hlen]
    omega
  unfold substStr
  rw [hdata, ta_shape]
  rw [subPass_no_start matchSysIdTok '$' matchSysIdTok_no_dollar ctx _
    (fun c hc => by
      rcases List.mem_append.mp hc with h | h
      · exact (hpre c h).1
      · rcases List.mem_append.mp h with h2 | h2
        · exact ta_no_dollar ts.data htc c h2
        · exact (hsuf c h2).1)]
  rw [subPass_no_start matchResultTok '$' matchResultTok_no_dollar ctx _
    (fun c hc => by
      rcases List.mem_append.mp hc with h | h
      · exact (hpre c h).1
      · rcases List.mem_append.mp h with h2 | h2
        · exact ta_no_dollar ts.data htc c h2
        · exact (hsuf c h2).1)]
  rw [← ta_shape]
  rw [subPass_embedded_kept matchAliasTok '<' matchAliasTok_no_lt ctx
    pre.data _ suf.data ts
    (fun c hc => (hpre c hc).2) (fun c hc => (hsuf c hc).2) htok hpos hv]
  rw [← hdata]

/-- C7: `_substitute` recurses to every string value and rewrites it with
the three regex passes, a total function that never raises.  For each of
the three recognized token kinds — `$stepN.sys_id`,
`$stepN.result[i].sys_id` and `<TOKEN>` — embedded between token-free
runs: a token whose captured context key is bound to a non-`None` entry of
any shape (string or not) is replaced by that entry's string form
`str(v)`, and a token whose key is unbound is kept as its original literal
text.  In particular, with context `{"step1.sys_id": "abc123"}`,
substituting `"$step1.sys_id"` yields `"abc123"` and substituting
`"$step2.sys_id"` yields the literal string unchanged. -/
theorem claim_C7_substitution :
    (∀ (s : String) (ctx : List (String × JVal)),
      substVal (.str s) ctx = .str (substStr s ctx)) ∧
    (∀ (pre suf ds : String) (ctx : List (String × JVal)) (v : JVal),
      DigitStr ds → TokenFree pre → TokenFree suf →
      dget ctx ("step" ++ ds ++ ".sys_id") = some v →
      isNull v = false → TokenFree (pyStr v) →
      substStr (pre ++ "$step" ++ ds ++ ".sys_id" ++ suf) ctx = pre ++ pyStr v ++ suf) ∧
    (∀ (pre suf ds : String) (ctx : List (String × JVal)),
      DigitStr ds → TokenFree pre → TokenFree suf →
      dget ctx ("step" ++ ds ++ ".sys_id") = none →
      substStr (pre ++ "$step" ++ ds ++ ".sys_id" ++ suf) ctx =
        pre ++ "$step" ++ ds ++ ".sys_id" ++ suf) ∧
    (∀ (pre suf ds es : String) (ctx : List (String × JVal)) (v : JVal),
      DigitStr ds → DigitStr es → TokenFree pre → TokenFree suf →
      dget ctx ("step" ++ ds ++ ".result[" ++ es ++ "].sys_id") = some v →
      isNull v = false → TokenFree (pyStr v) →
      substStr (pre ++ "$step" ++ ds ++ ".result[" ++ es ++ "].sys_id" ++ suf) ctx =
        pre ++ pyStr v ++ suf) ∧
    (∀ (pre suf ds es : String) (ctx : List (String × JVal)),
      DigitStr ds → DigitStr es → TokenFree pre → TokenFree suf →
      dget ctx ("step" ++ ds ++ ".result[" ++ es ++ "].sys_id") = none →
      substStr (pre ++ "$step" ++ ds ++ ".result[" ++ es ++ "].sys_id" ++ suf) ctx =
        pre ++ "$step" ++ ds ++ ".result[" ++ es ++ "].sys_id" ++ suf) ∧
    (∀ (pre suf ts : String) (ctx : List (String × JVal)) (v : JVal),
      TokName ts → TokenFree pre → TokenFree suf →
      dget ctx ts = some v → isNull v = false →
      substStr (pre ++ "<" ++ ts ++ ">" ++ suf) ctx = pre ++ pyStr v ++ suf) ∧
    (∀ (pre suf ts : String) (ctx : List (String × JVal)),
      TokName ts → TokenFree pre → TokenFree suf →
      dget ctx ts = none →
      substStr (pre ++ "<" ++ ts ++ ">" ++ suf) ctx =
        pre ++ "<" ++ ts ++ ">" ++ suf) ∧
    substStr "$step1.sys_id" [("step1.sys_id", .str "abc123")] = "abc123" ∧
    substStr "$step2.sys_id" [("step1.sys_id", .str "abc123")] = "$step2.sys_id" :=
  ⟨fun _ _ => rfl,
   fun pre suf ds ctx v hds hpre hsuf hv hnv hvf =>
     subst_sysid_found_emb pre suf ds ctx v hds hpre hsuf hv hnv hvf,
   fun pre suf ds ctx hds hpre hsuf hv =>
     subst_sysid_missing_emb pre suf ds ctx hds hpre hsuf hv,
   fun pre suf ds es ctx v hds hes hpre hsuf hv hnv hvf =>
     subst_result_found_emb pre suf ds es ctx v hds hes hpre hsuf hv hnv hvf,
   fun pre suf ds es ctx hds hes hpre hsuf hv =>
     subst_result_missing_emb pre suf ds es ctx hds hes hpre hsuf hv,
   fun pre suf ts ctx v hts hpre hsuf hv hnv =>
     subst_alias_found_emb pre suf ts ctx v hts hpre hsuf hv hnv,
   fun pre suf ts ctx hts hpre hsuf hv =>
     subst_alias_missing_emb pre suf ts ctx hts hpre hsuf hv,
   by decide, by decide⟩

/-- C7 witness: every general conjunct applied at concrete inputs — a
`$step2.sys_id` token inside a longer string bound to the non-string value
`7`, an unbound `$step9.sys_id`, a bound and an unbound
`$stepN.result[i].sys_id` token, and a bound and an unbound `<TOKEN>`
alias. -/
theorem claim_C7_witness :
    substVal (.str "x") [] = .str (substStr "x" []) ∧
    substStr ("id=" ++ "$step" ++ "2" ++ ".sys_id" ++ ";") [("step2.sys_id", .num 7)] =
      "id=" ++ pyStr (.num 7) ++ ";" ∧
    substStr ("x " ++ "$step" ++ "9" ++ ".sys_id" ++ " y") [("a", .str "b")] =
      "x " ++ "$step" ++ "9" ++ ".sys_id" ++ " y" ∧
    substStr ("r=" ++ "$step" ++ "1" ++ ".result[" ++ "0" ++ "].sys_id" ++ ".")
        [("step1.result[0].sys_id", .str "row0")] = "r=" ++ pyStr (.str "row0") ++ "." ∧
    substStr ("" ++ "$step" ++ "1" ++ ".result[" ++ "2" ++ "].sys_id" ++ "!") [] =
      "" ++ "$step" ++ "1" ++ ".result[" ++ "2" ++ "].sys_id" ++ "!" ∧
    substStr ("a-" ++ "<" ++ "CAT_ITEM_SYS_ID" ++ ">" ++ "-b")
        [("CAT_ITEM_SYS_ID", .str "ci9")] = "a-" ++ pyStr (.str "ci9") ++ "-b" ∧
    substStr ("a" ++ "<" ++ "MISSING_TOKEN" ++ ">" ++ "b") [] =
      "a" ++ "<" ++ "MISSING_TOKEN" ++ ">" ++ "b" :=
  ⟨claim_C7_substitution.1 "x" [],
   claim_C7_substitution.2.1 "id=" ";" "2" [("step2.sys_id", .num 7)] (.num 7)
     ⟨by decide, by decide⟩ (by decide) (by decide) rfl rfl (by decide),
   claim_C7_substitution.2.2.1 "x " " y" "9" [("a", .str "b")]
     ⟨by decide, by decide⟩ (by decide) (by decide) rfl,
   claim_C7_substitution.2.2.2.1 "r=" "." "1" "0"
     [("step1.result[0].sys_id", .str "row0")] (.str "row0")
     ⟨by decide, by decide⟩ ⟨by decide, by decide⟩ (by decide) (by decide)
     rfl rfl (by decide),
   claim_C7_substitution.2.2.2.2.1 "" "!" "1" "2" []
     ⟨by decide, by decide⟩ ⟨by decide, by decide⟩ (by decide) (by decide) rfl,
   claim_C7_substitution.2.2.2.2.2.1 "a-" "-b" "CAT_ITEM_SYS_ID"
     [("CAT_ITEM_SYS_ID", .str "ci9")] (.str "ci9")
     ⟨by decide, by decide⟩ (by decide) (by decide) rfl rfl,
   claim_C7_substitution.2.2.2.2.2.2.1 "a" "b" "MISSING_TOKEN" []
     ⟨by decide, by decide⟩ (by decide) (by decide) rfl⟩

/-! ### C9 — reference-context write discipline (amended) -/

/-- One context assignment preserves write discipline when its own entry
satisfies it. -/
theorem ctxSet_writes_good (st : LoopState) (i : Nat) (k : String) (v : JVal)
    (hg : ∀ w ∈ st.writes, GoodWrite w) (hw : GoodWrite (i, k, v)) :
    ∀ w ∈ (ctxSet st i k v).writes, GoodWrite w := by
  intro w hmem
  rcases List.mem_append.mp hmem with h | h
  · exact hg w h
  · rcases List.mem_singleton.mp h with rfl
    exact hw

/-- Alias registration preserves write discipline (the registered
identifier is nonempty). -/
theorem register_aliases_writes_good (st : LoopState) (i : Nat) (cid table : String)
    (hcid : cid ≠ "")
    (hg : ∀ w ∈ st.writes, GoodWrite w) :
    ∀ w ∈ (_register_aliases st i cid table).writes, GoodWrite w := by
  have hkey : ("step" ++ toString i ++ ".sys_id" : String) =
      "step" ++ toString i ++ "." ++ "sys_id" := by
    apply String.ext
    simp [String.data_append, List.append_assoc]
  have h1 : ∀ w ∈ (ctxSet st i ("step" ++ toString i ++ ".sys_id") (.str cid)).writes,
      GoodWrite w := by
    apply ctxSet_writes_good st i _ _ hg
    refine ⟨by simp [isTruthy, hcid], Or.inr ⟨"sys_id", hkey⟩⟩
  unfold _register_aliases
  split
  · exact ctxSet_writes_good _ i _ _ h1 ⟨by simp [isTruthy, hcid], Or.inl rfl⟩
  · exact h1

/-- Row registration preserves write discipline. -/
theorem register_rows_writes_good (i : Nat) :
    ∀ (j : Nat) (rows : List JVal) (st : LoopState),
      (∀ w ∈ st.writes, GoodWrite w) →
      ∀ w ∈ (_register_rows i j rows st).writes, GoodWrite w := by
  intro j rows
  induction rows generalizing j with
  | nil => intro st hg; exact hg
  | cons row rest ih =>
    intro st hg
    simp only [_register_rows]
    apply ih
    cases row <;> try exact hg
    case obj rkvs =>
      simp only []
      cases dget rkvs "sys_id" with
      | none => exact hg
      | some sid =>
        simp only []
        split
        case isTrue htr =>
          apply ctxSet_writes_good st i _ _ hg
          refine ⟨htr, Or.inr ⟨"result[" ++ toString j ++ "].sys_id", ?_⟩⟩
          apply String.ext
          simp [String.data_append, List.append_assoc]
        case isFalse => exact hg

/-- Response registration preserves write discipline. -/
theorem register_ctx_writes_good (st : LoopState) (i : Nat) (body : JVal)
    (hg : ∀ w ∈ st.writes, GoodWrite w) :
    ∀ w ∈ (_register_ctx_from_response st i body).writes, GoodWrite w := by
  unfold _register_ctx_from_response
  cases body <;> try exact hg
  case obj kvs =>
    cases hr : dget kvs "result" with
    | none => simp only [hr]; exact hg
    | some r =>
      simp only [hr]
      have hkey : ("step" ++ toString i ++ ".sys_id" : String) =
          "step" ++ toString i ++ "." ++ "sys_id" := by
        apply String.ext
        simp [String.data_append, List.append_assoc]
      cases r <;> try exact hg
      case obj rkvs =>
        simp only []
        cases dget rkvs "sys_id" with
        | none => exact hg
        | some sid =>
          simp only []
          split
          case isTrue htr =>
            exact ctxSet_writes_good st i _ _ hg ⟨htr, Or.inr ⟨"sys_id", hkey⟩⟩
          case isFalse => exact hg
      case arr rows =>
        simp only []
        exact register_rows_writes_good i 0 rows st hg

/-- The remote call itself never records context writes. -/
theorem callRemote_writes (sn : Oracle) (c : RemoteCall) (st : LoopState) :
    (callRemote sn c st).2.writes = st.writes := rfl

/-- The get miss path never records context writes. -/
theorem missGet_writes (sn : Oracle) (cs : Bool) (table sid : String)
    (params2 : List (String × JVal)) (ck : String) (st : LoopState) :
    (missGet sn cs table sid params2 ck st).2.1.writes = st.writes := by
  unfold missGet
  simp only []
  cases hr : (callRemote sn (RemoteCall.get table sid params2) st).1 with
  | ok body =>
    simp only []
    split
    · rfl
    · rfl
  | error e => rfl

/-- The remote query path never records context writes. -/
theorem missQuery_writes (sn : Oracle) (table q : String) (limit : Int)
    (callParams : List (String × JVal)) (st : LoopState) :
    (missQuery sn table q limit callParams st).2.1.writes = st.writes := rfl

/-- The query miss path never records context writes. -/
theorem queryWithSet_writes (sn : Oracle) (table q : String) (limit : Int)
    (callParams : List (String × JVal)) (ck : String) (st : LoopState) :
    (queryWithSet sn table q limit callParams ck st).2.1.writes = st.writes := by
  unfold queryWithSet
  simp only []
  cases hr : (missQuery sn table q limit callParams st).1 with
  | ok body => rfl
  | error e => rfl

/-- The `try` block never records context writes. -/
theorem tryDispatch_writes (sn : Oracle) (cg cs : Bool) (op table : String)
    (sysId2 query2 : JVal) (fields2 params2 : List (String × JVal)) (st : LoopState) :
    (tryDispatch sn cg cs op table sysId2 query2 fields2 params2 st).2.1.writes =
      st.writes := by
  unfold tryDispatch
  by_cases h1 : table = ""
  · rw [if_pos h1]
  · rw [if_neg h1]
    by_cases h2 : op = "create"
    · rw [if_pos h2]
      rfl
    · rw [if_neg h2]
      by_cases h3 : op = "update"
      · rw [if_pos h3]
        by_cases h3b : (!isTruthy sysId2) = true
        · rw [if_pos h3b]
        · rw [if_neg h3b]
          rfl
      · rw [if_neg h3]
        by_cases h4 : op = "delete"
        · rw [if_pos h4]
          by_cases h4b : (!isTruthy sysId2) = true
          · rw [if_pos h4b]
          · rw [if_neg h4b]
            rfl
        · rw [if_neg h4]
          by_cases h5 : op = "get"
          · rw [if_pos h5]
            by_cases h5b : (!isTruthy sysId2) = true
            · rw [if_pos h5b]
            · rw [if_neg h5b]
              simp only []
              by_cases h5c : cg = true
              · rw [if_pos h5c]
                cases dget st.cache
                    (_cache_key "get" table (some (pyStr sysId2)) none params2) with
                | none => exact missGet_writes sn cs table (pyStr sysId2) params2 _ st
                | some hit =>
                  simp only []
                  by_cases h5d : isNull hit = true
                  · rw [if_pos h5d]
                    exact missGet_writes sn cs table (pyStr sysId2) params2 _ st
                  · rw [if_neg h5d]
              · rw [if_neg h5c]
                rfl
          · rw [if_neg h5]
            by_cases h6 : op = "query"
            · rw [if_pos h6]
              by_cases h6b : (!isTruthy query2) = true
              · rw [if_pos h6b]
              · rw [if_neg h6b]
                simp only []
                by_cases h6c : (cg && cs) = true
                · rw [if_pos h6c]
                  cases dget st.cache
                      (_cache_key "query" table none (some (pyStr query2)) params2) with
                  | none => exact queryWithSet_writes sn table (pyStr query2) _ _ _ st
                  | some hit =>
                    simp only []
                    by_cases h6d : isNull hit = true
                    · rw [if_pos h6d]
                      exact queryWithSet_writes sn table (pyStr query2) _ _ _ st
                    · rw [if_neg h6d]
                · rw [if_neg h6c]
                  exact missQuery_writes sn table (pyStr query2) _ _ st
            · rw [if_neg h6]
              by_cases h7 : op = "change_update_set"
              · rw [if_pos h7]
                rfl
              · rw [if_neg h7]

/-- One dispatched step preserves the write discipline. -/
theorem dispatchStep_writes_good (sn : Oracle) (cg cs : Bool) (i : Nat) (s : NormStep)
    (st : LoopState) (hg : ∀ w ∈ st.writes, GoodWrite w) :
    ∀ w ∈ (dispatchStep sn cg cs i s st).2.writes, GoodWrite w := by
  have h1 : ∀ w ∈ (tryDispatch sn cg cs (_op_alias s.operation) s.table
      (substIfStr s.sys_id st.ctx) (substIfStr s.query st.ctx)
      (substPairs s.fields st.ctx) (substPairs s.params st.ctx) st).2.1.writes,
      GoodWrite w := by
    rw [tryDispatch_writes]
    exact hg
  unfold dispatchStep
  simp only []
  repeat' split
  all_goals first
    | exact h1
    | exact register_ctx_writes_good _ i _ h1
    | exact register_ctx_writes_good _ i _
        (register_aliases_writes_good _ i _ _ (by assumption) h1)

/-- The loop preserves the write discipline. -/
theorem runLoop_writes_good (sn : Oracle) (stop cg cs : Bool) :
    ∀ (raws : List JVal) (i : Nat) (st : LoopState)
      (res : List StepResult × LoopState),
      runLoop sn stop cg cs i st raws = .ok res →
      (∀ w ∈ st.writes, GoodWrite w) →
      ∀ w ∈ res.2.writes, GoodWrite w := by
  intro raws
  induction raws with
  | nil =>
    intro i st res h hg
    simp only [runLoop] at h
    injection h with h2
    rw [← h2]
    exact hg
  | cons raw rest ih =>
    intro i st res h hg
    cases hn : _normalize_step raw with
    | error e =>
      simp only [runLoop, hn] at h
      exact absurd h (by simp)
    | ok s =>
      simp only [runLoop, hn] at h
      by_cases hc : (!(dispatchStep sn cg cs i s st).1.ok && stop) = true
      · rw [if_pos hc] at h
        injection h with h2
        rw [← h2]
        exact dispatchStep_writes_good sn cg cs i s st hg
      · rw [if_neg hc] at h
        cases hr : runLoop sn stop cg cs (i + 1) (dispatchStep sn cg cs i s st).2 rest with
        | error e =>
          rw [hr] at h
          exact absurd h (by simp)
        | ok pr =>
          rw [hr] at h
          simp only [] at h
          injection h with h2
          rw [← h2]
          exact ih (i + 1) (dispatchStep sn cg cs i s st).2 pr hr
            (dispatchStep_writes_good sn cg cs i s st hg)

/-- C9 amended: throughout every run, each recorded context write stores a
truthy value, and its key is either the catalog-item alias or is scoped to
the writing step (`stepJ.` prefix with that step's own index).  Write-once
per step execution does not hold: `stepN.sys_id` can be written twice
within one step (see the counterexample), and the alias key can be
rewritten by later steps. -/
theorem claim_C9_write_discipline (sn : Oracle) (plan : JVal) (stop cg cs : Bool)
    (cache0 : List (String × JVal)) (rep : Report) (st : LoopState)
    (h : execute_steps_full sn plan stop cg cs cache0 = .ok (rep, st)) :
    ∀ w ∈ st.writes, GoodWrite w := by
  unfold execute_steps_full at h
  rcases h1 : _extract_steps plan with e | raws
  · rw [h1] at h
    exact absurd h (by simp)
  · rw [h1] at h
    simp only [] at h
    rcases h2 : runLoop sn stop cg cs 1 (initState cache0) raws with e | pr
    · rw [h2] at h
      exact absurd h (by simp)
    · rw [h2] at h
      simp only [Except.ok.injEq, Prod.mk.injEq] at h
      have hst : st = pr.2 := h.2.symm
      subst hst
      exact runLoop_writes_good sn stop cg cs raws 1 (initState cache0) pr h2
        (by intro w hw; simp [initState] at hw)

/-- C9 witness: the write-discipline theorem applied to a concrete create
step whose response registers `step1.sys_id`. -/
theorem claim_C9_witness : GoodWrite (1, "step1.sys_id", JVal.str "b") :=
  claim_C9_write_discipline
    (oracleConst (.obj [("result", .obj [("sys_id", .str "b")])]))
    (.arr [.obj [("operation", .str "create"), ("table", .str "t")]])
    true false false [] _ _ rfl
    (1, "step1.sys_id", JVal.str "b") (List.Mem.head _)
